import Mathlib

/-
Verification development for a CRM middleware core: this file embeds, as
executable Lean definitions, the text normalizer, the string-similarity
algorithms, the smart matcher scoring, the metadata cache staleness rule,
the preflight validator and the graph-based dependency resolver of the
repository, and proves properties about those embeddings.

Strings are modeled as Lean `String`/`List Char`; JS numbers are modeled as
exact rationals; the remote data service and the metadata store are modeled
as explicit function-valued parameters (oracles), mirroring the repository's
dependency-injected collaborators.
-/

namespace SfMcp

/-- JS runtime values as they occur in record payloads and validator input. -/
inductive JValue where
  | jstr (s : String)
  | jnum (q : ℚ)
  | jbool (b : Bool)
  | jnull
deriving DecidableEq

/-- Result of JS `typeof` on a payload value (null gives "object"). -/
def typeofJ : JValue → String
  | .jstr _ => "string"
  | .jnum _ => "number"
  | .jbool _ => "boolean"
  | .jnull => "object"

/-- Association-list lookup modelling a JS object property read (`obj[k]`). -/
def jlookup (data : List (String × JValue)) (k : String) : Option JValue :=
  (data.find? (fun kv => kv.1 = k)).map (fun kv => kv.2)

/-- JS truthiness of a property read: absent, null, "", 0 and false are falsy. -/
def jsTruthy : Option JValue → Bool
  | none => false
  | some .jnull => false
  | some (.jstr s) => !(s = "")
  | some (.jnum q) => !(q = 0)
  | some (.jbool b) => b

/-- ASCII lowercase conversion, modelling `String.prototype.toLowerCase` on the
character ranges this code base exercises (non-ASCII uppercase letters that
matter here are eliminated by the diacritic fold before lowercasing). -/
def jsToLowerChar (c : Char) : Char :=
  if 65 ≤ c.toNat ∧ c.toNat ≤ 90 then Char.ofNat (c.toNat + 32) else c

/-- Lowercase a whole string the way `toLowerCase` does. -/
def jsToLowerStr (s : String) : String :=
  String.mk (s.data.map jsToLowerChar)

/-- ASCII uppercase conversion, modelling `String.prototype.toUpperCase`
on the ASCII range (used by the Soundex encoder). -/
def jsToUpperChar (c : Char) : Char :=
  if 97 ≤ c.toNat ∧ c.toNat ≤ 122 then Char.ofNat (c.toNat - 32) else c

/-- Membership of a character in the JS regex `\s` class (also the set
trimmed by `String.prototype.trim`). -/
def isJsSpace (c : Char) : Bool :=
  c = ' ' || c = '\t' || c = '\n' || c = '\x0b' || c = '\x0c' || c = '\r' ||
  c = '\u00A0' || c = '\u1680' || (decide ('\u2000' ≤ c) && decide (c ≤ '\u200A')) ||
  c = '\u2028' || c = '\u2029' || c = '\u202F' || c = '\u205F' ||
  c = '\u3000' || c = '\uFEFF'

/-- Membership of a character in the JS regex `\w` class (`[A-Za-z0-9_]`). -/
def isWordChar (c : Char) : Bool :=
  (decide (97 ≤ c.toNat) && decide (c.toNat ≤ 122)) ||
  (decide (65 ≤ c.toNat) && decide (c.toNat ≤ 90)) ||
  (decide (48 ≤ c.toNat) && decide (c.toNat ≤ 57)) ||
  c = '_'

/-- ASCII alphanumeric test (`[a-zA-Z0-9]`), used by special-char stripping. -/
def isAsciiAlnum (c : Char) : Bool :=
  (decide (97 ≤ c.toNat) && decide (c.toNat ≤ 122)) ||
  (decide (65 ≤ c.toNat) && decide (c.toNat ≤ 90)) ||
  (decide (48 ≤ c.toNat) && decide (c.toNat ≤ 57))

/-- Does the haystack start with the needle segment? -/
def startsWithSeg : List Char → List Char → Bool
  | _, [] => true
  | [], _ :: _ => false
  | h :: hs, n :: ns => h = n && startsWithSeg hs ns

/-- Does the needle segment occur anywhere in the haystack? -/
def hasSeg : List Char → List Char → Bool
  | _, [] => true
  | [], _ :: _ => false
  | h :: hs, n :: ns => startsWithSeg (h :: hs) (n :: ns) || hasSeg hs (n :: ns)

/-- Substring containment on strings (JS `String.prototype.includes`). -/
def containsSub (hay needle : String) : Bool :=
  hasSeg hay.data needle.data

/-- Test whether a string starts with the temporary-reference sigil `@`
(JS `value.startsWith('@')`). -/
def startsWithAt (s : String) : Bool :=
  match s.data with
  | [] => false
  | c :: _ => c = '@'

/-
Text Normalizer (source: `TextNormalizer` in the normalizer module).
-/

/-- Diacritic substitution table, verbatim from the source `DIACRITIC_MAP`. -/
def DIACRITIC_MAP : List (Char × String) :=
  [('à', "a"), ('á', "a"), ('â', "a"), ('ã', "a"), ('ä', "a"), ('å', "a"), ('æ', "ae"),
   ('ç', "c"),
   ('è', "e"), ('é', "e"), ('ê', "e"), ('ë', "e"),
   ('ì', "i"), ('í', "i"), ('î', "i"), ('ï', "i"),
   ('ñ', "n"),
   ('ò', "o"), ('ó', "o"), ('ô', "o"), ('õ', "o"), ('ö', "o"), ('ø', "o"), ('œ', "oe"),
   ('ù', "u"), ('ú', "u"), ('û', "u"), ('ü', "u"),
   ('ý', "y"), ('ÿ', "y"),
   ('ß', "ss"),
   ('À', "A"), ('Á', "A"), ('Â', "A"), ('Ã', "A"), ('Ä', "A"), ('Å', "A"), ('Æ', "AE"),
   ('Ç', "C"),
   ('È', "E"), ('É', "E"), ('Ê', "E"), ('Ë', "E"),
   ('Ì', "I"), ('Í', "I"), ('Î', "I"), ('Ï', "I"),
   ('Ñ', "N"),
   ('Ò', "O"), ('Ó', "O"), ('Ô', "O"), ('Õ', "O"), ('Ö', "O"), ('Ø', "O"), ('Œ', "OE"),
   ('Ù', "U"), ('Ú', "U"), ('Û', "U"), ('Ü', "U"),
   ('Ý', "Y"), ('Ÿ', "Y"),
   ('ą', "a"), ('ć', "c"), ('ę', "e"), ('ł', "l"), ('ń', "n"), ('ś', "s"), ('ź', "z"), ('ż', "z"),
   ('Ą', "A"), ('Ć', "C"), ('Ę', "E"), ('Ł', "L"), ('Ń', "N"), ('Ś', "S"), ('Ź', "Z"), ('Ż', "Z"),
   ('č', "c"), ('ď', "d"), ('ě', "e"), ('ň', "n"), ('ř', "r"), ('š', "s"), ('ť', "t"), ('ů', "u"), ('ž', "z"),
   ('Č', "C"), ('Ď', "D"), ('Ě', "E"), ('Ň', "N"), ('Ř', "R"), ('Š', "S"), ('Ť', "T"), ('Ů', "U"), ('Ž', "Z"),
   ('ğ', "g"), ('ı', "i"), ('ş', "s"),
   ('Ğ', "G"), ('İ', "I"), ('Ş', "S"),
   ('þ', "th"), ('ð', "d"),
   ('Þ', "TH"), ('Ð', "D")]

/-- Table lookup `DIACRITIC_MAP[char]`. -/
def diaLookup (c : Char) : Option String :=
  (DIACRITIC_MAP.find? (fun kv => kv.1 = c)).map (fun kv => kv.2)

/-- Per-character diacritic folding: `result += DIACRITIC_MAP[char] || char`. -/
def removeDiacriticsL : List Char → List Char
  | [] => []
  | c :: cs =>
    (match diaLookup c with
     | some r => r.data
     | none => [c]) ++ removeDiacriticsL cs

/-- Business suffix table of the source (`BUSINESS_SUFFIX_MAP`), already put in
the iteration order the source produces: `Object.keys` insertion order stably
sorted by key length, longest first. -/
def businessSuffixList : List (String × String) :=
  [("gesellschaft mit beschränkter haftung", "gmbh"),
   ("gesellschaft mit beschrankter haftung", "gmbh"),
   ("limited liability partnership", "llp"),
   ("limited liability company", "llc"),
   ("public limited company", "plc"),
   ("proprietary limited", "pty"),
   ("aktiengesellschaft", "ag"),
   ("sociedade anônima", "sa"),
   ("sociedade anonima", "sa"),
   ("sociedad anónima", "sa"),
   ("sociedad anonima", "sa"),
   ("société anonyme", "sa"),
   ("societe anonyme", "sa"),
   ("limited company", "ltd"),
   ("private limited", "pvt"),
   ("incorporated", "inc"),
   ("corporation", "corp"),
   ("s.a.r.l.", "sarl"),
   ("limited", "ltd"),
   ("company", "co"),
   ("pvt ltd", "pvt"),
   ("pty ltd", "pty"),
   ("corp.", "corp"),
   ("gmbh.", "gmbh"),
   ("inc.", "inc"),
   ("ltd.", "ltd"),
   ("llc.", "llc"),
   ("llp.", "llp"),
   ("plc.", "plc"),
   ("s.a.", "sa"),
   ("co.", "co"),
   ("ag.", "ag")]

/-- Word-boundary test between two adjacent positions (JS regex `\b`):
exactly one of the two neighbouring characters is a word character
(a missing neighbour counts as a non-word character). -/
def boundaryOk (a b : Option Char) : Bool :=
  (match a with | some c => isWordChar c | none => false) !=
  (match b with | some c => isWordChar c | none => false)

/-- Single pattern-character match with the `i` flag; the source builds its
suffix regexes without escaping, so a literal `.` in a suffix key acts as the
regex wildcard (any char except a line terminator). -/
def patCharMatches (p c : Char) : Bool :=
  if p = '.' then !(c = '\n' || c = '\r' || c = '\u2028' || c = '\u2029')
  else jsToLowerChar p = jsToLowerChar c

/-- Match the pattern characters greedily against a prefix of the text,
returning the last consumed character and the remaining text. -/
def matchChars : List Char → List Char → Option Char → Option (Option Char × List Char)
  | [], txt, last => some (last, txt)
  | _ :: _, [], _ => none
  | p :: ps, c :: cs, _ =>
    if patCharMatches p c then matchChars ps cs (some c) else none

/-- Try to match `\b<pat>\b` at the current position; `prev` is the character
just before the position in the original string. -/
def tryPat (prev : Option Char) (pat txt : List Char) : Option (Option Char × List Char) :=
  match matchChars pat txt none with
  | some (last, rest) =>
    if boundaryOk prev txt.head? && boundaryOk last rest.head? then some (last, rest)
    else none
  | none => none

/-- Left-to-right global replacement of `\b<pat>\b` by `rep`
(JS `String.prototype.replace` with a `g` regex); the fuel starts at the text
length and each step consumes at least one character. -/
def replaceAllGo (pat rep : List Char) : Nat → Option Char → List Char → List Char
  | 0, _, txt => txt
  | _ + 1, _, [] => []
  | fuel + 1, prev, c :: cs =>
    match tryPat prev pat (c :: cs) with
    | some (last, rest) => rep ++ replaceAllGo pat rep fuel last rest
    | none => c :: replaceAllGo pat rep fuel (some c) cs

/-- Global word-bounded replacement over a whole string. -/
def replaceWordBounded (pat rep txt : List Char) : List Char :=
  replaceAllGo pat rep txt.length none txt

/-- Existence of at least one `\b<pat>\b` match (JS `regex.test`). -/
def existsPatGo (pat : List Char) : Nat → Option Char → List Char → Bool
  | 0, _, _ => false
  | _ + 1, _, [] => false
  | fuel + 1, prev, c :: cs =>
    match tryPat prev pat (c :: cs) with
    | some _ => true
    | none => existsPatGo pat fuel (some c) cs

/-- Test for a word-bounded match anywhere in the text. -/
def existsPatMatch (pat txt : List Char) : Bool :=
  existsPatGo pat txt.length none txt

/-- Business-suffix canonicalization pass: for each suffix key (longest
first), if the word-bounded pattern occurs, replace all its occurrences by the
canonical token and record the rewrite. -/
def normalizeBusinessSuffixesL (txt : List Char) : List Char × List String :=
  businessSuffixList.foldl
    (fun acc kv =>
      if existsPatMatch kv.1.data acc.1 then
        (replaceWordBounded kv.1.data kv.2.data acc.1, acc.2 ++ [kv.1 ++ " -> " ++ kv.2])
      else acc)
    (txt, [])

/-- Collapse every maximal run of `\s` characters into a single space
(the `replace(\s+, ' ')` step). -/
def collapseGo : Bool → List Char → List Char
  | _, [] => []
  | inRun, c :: cs =>
    if isJsSpace c then
      (if inRun then collapseGo true cs else ' ' :: collapseGo true cs)
    else c :: collapseGo false cs

/-- Whitespace-run collapsing over a whole string. -/
def collapseSpaces (txt : List Char) : List Char :=
  collapseGo false txt

/-- Remove trailing periods (the `replace(\.+$, '')` step). -/
def dropTrailingPeriods (txt : List Char) : List Char :=
  (txt.reverse.dropWhile (fun c => c == '.')).reverse

/-- JS `String.prototype.trim` over the `\s` class. -/
def trimL (txt : List Char) : List Char :=
  ((txt.dropWhile isJsSpace).reverse.dropWhile isJsSpace).reverse

/-- Whitespace normalization: collapse runs, strip trailing periods, trim. -/
def normalizeWhitespaceL (txt : List Char) : List Char :=
  trimL (dropTrailingPeriods (collapseSpaces txt))

/-- Special-character stripping: keep alphanumerics, `\s` characters and,
optionally, the `@` symbol. -/
def removeSpecialCharsL (preserveAt : Bool) (txt : List Char) : List Char :=
  txt.filter (fun c => isAsciiAlnum c || isJsSpace c || (preserveAt && c = '@'))

/-- Normalization options (all six flags of the source interface). -/
structure NormalizationOptions where
  removeDiacritics : Bool
  normalizeBusinessSuffixes : Bool
  lowercase : Bool
  removeSpecialChars : Bool
  normalizeWhitespace : Bool
  preserveAtSymbol : Bool
deriving DecidableEq

/-- Caller-provided partial options, merged over the defaults. -/
structure PartialNormOptions where
  removeDiacritics : Option Bool
  normalizeBusinessSuffixes : Option Bool
  lowercase : Option Bool
  removeSpecialChars : Option Bool
  normalizeWhitespace : Option Bool
  preserveAtSymbol : Option Bool
deriving DecidableEq

/-- The source's `defaultOptions`. -/
def defaultOptions : NormalizationOptions :=
  ⟨true, true, true, false, true, false⟩

/-- Merge of caller options over the defaults (`{...defaultOptions, ...options}`). -/
def mergeOptions : Option PartialNormOptions → NormalizationOptions
  | none => defaultOptions
  | some p =>
    ⟨p.removeDiacritics.getD defaultOptions.removeDiacritics,
     p.normalizeBusinessSuffixes.getD defaultOptions.normalizeBusinessSuffixes,
     p.lowercase.getD defaultOptions.lowercase,
     p.removeSpecialChars.getD defaultOptions.removeSpecialChars,
     p.normalizeWhitespace.getD defaultOptions.normalizeWhitespace,
     p.preserveAtSymbol.getD defaultOptions.preserveAtSymbol⟩

/-- Change-tracking metadata of a normalization run. -/
structure NormalizationChanges where
  diacriticsRemoved : Int
  suffixesNormalized : List String
  specialCharsRemoved : Int
deriving DecidableEq

/-- Result of `normalizeWithMetadata`. -/
structure NormalizationResult where
  original : String
  normalized : String
  changes : NormalizationChanges
deriving DecidableEq

/-- Full normalization pipeline of `TextNormalizer.normalizeWithMetadata`:
diacritic fold, lowercase, business-suffix canonicalization, optional
special-character stripping, whitespace normalization, final trim. -/
def TextNormalizer.normalizeWithMetadata (options : Option PartialNormOptions)
    (text : String) : NormalizationResult :=
  let opts := mergeOptions options
  let t0 := text.data
  let t1 := if opts.removeDiacritics then removeDiacriticsL t0 else t0
  let diaRemoved : Int := if opts.removeDiacritics then (t0.length : Int) - (t1.length : Int) else 0
  let t2 := if opts.lowercase then t1.map jsToLowerChar else t1
  let suf := if opts.normalizeBusinessSuffixes then normalizeBusinessSuffixesL t2 else (t2, [])
  let t3 := suf.1
  let t4 := if opts.removeSpecialChars then removeSpecialCharsL opts.preserveAtSymbol t3 else t3
  let scRemoved : Int := if opts.removeSpecialChars then (t3.length : Int) - (t4.length : Int) else 0
  let t5 := if opts.normalizeWhitespace then normalizeWhitespaceL t4 else t4
  { original := text
    normalized := String.mk (trimL t5)
    changes := ⟨diaRemoved, suf.2, scRemoved⟩ }

/-- The source's quick `normalize` entry point. -/
def TextNormalizer.normalize (options : Option PartialNormOptions) (text : String) : String :=
  (TextNormalizer.normalizeWithMetadata options text).normalized

/-- Email normalization variant (keeps `@`, skips suffix canonicalization). -/
def TextNormalizer.normalizeEmail (email : String) : String :=
  TextNormalizer.normalize
    (some ⟨some true, some false, some true, some false, some true, some true⟩) email

/-- Company-name normalization variant. -/
def TextNormalizer.normalizeCompanyName (name : String) : String :=
  TextNormalizer.normalize
    (some ⟨some true, some true, some true, some false, some true, none⟩) name

/-- Person-name normalization variant. -/
def TextNormalizer.normalizePersonName (name : String) : String :=
  TextNormalizer.normalize
    (some ⟨some true, some false, some true, some false, some true, none⟩) name

/-- Aggressive search normalization variant (also strips special chars). -/
def TextNormalizer.normalizeForSearch (text : String) : String :=
  TextNormalizer.normalize
    (some ⟨some true, some true, some true, some true, some true, some false⟩) text

/-- Cell `matrix[i][j]` of the source's Levenshtein dynamic-programming
matrix (`i` ranges over `str2`, `j` over `str1`), defined by the recurrence
the nested loops compute. -/
def levCell (str1 str2 : List Char) (i j : Nat) : Nat :=
  match i, j with
  | 0, j => j
  | i + 1, 0 => i + 1
  | i + 1, j + 1 =>
    let cost := if str2.getD i ' ' = str1.getD j ' ' then 0 else 1
    min (levCell str1 str2 i (j + 1) + 1)
      (min (levCell str1 str2 (i + 1) j + 1) (levCell str1 str2 i j + cost))
termination_by (i, j)

/-- The source's `LevenshteinMatcher.distance`. -/
def LevenshteinMatcher.distance (str1 str2 : String) : Nat :=
  levCell str1.data str2.data str2.data.length str1.data.length

/-- The source's `LevenshteinMatcher.similarity`: 0 when either string is
empty, 1 on exact equality, otherwise `1 - distance/maxLen` on the lowercased
strings (with `maxLen` taken from the original strings). -/
def LevenshteinMatcher.similarity (str1 str2 : String) : ℚ :=
  if str1 = "" ∨ str2 = "" then 0
  else if str1 = str2 then 1
  else
    let d := LevenshteinMatcher.distance (jsToLowerStr str1) (jsToLowerStr str2)
    let maxLen := max str1.data.length str2.data.length
    1 - (d : ℚ) / (maxLen : ℚ)

/-- Mutable state of the Jaro match-finding loop. -/
structure JaroSt where
  m1 : List Bool
  m2 : List Bool
  m : Nat
deriving DecidableEq

/-- Inner `j` scan of the Jaro match loop: find the first unused index `j`
(within the window) with `str2[j] = c`; the fuel is the window width. -/
def jaroFindJ (s2 : List Char) (m2 : List Bool) (c : Char) : Nat → Nat → Option Nat
  | _, 0 => none
  | j, fuel + 1 =>
    if m2.getD j false = false ∧ s2.getD j ' ' = c then some j
    else jaroFindJ s2 m2 c (j + 1) fuel

/-- One iteration of the outer `i` loop of the Jaro match-finding phase. -/
def jaroStep (s1 s2 : List Char) (md : Int) (st : JaroSt) (i : Nat) : JaroSt :=
  let start : Nat := (max 0 ((i : Int) - md)).toNat
  let stop : Nat := (min ((i : Int) + md + 1) (s2.length : Int)).toNat
  match jaroFindJ s2 st.m2 (s1.getD i ' ') start (stop - start) with
  | some j => { m1 := st.m1.set i true, m2 := st.m2.set j true, m := st.m + 1 }
  | none => st

/-- The `while (!matches2[k]) k++` scan of the transposition-counting loop. -/
def nextTrue (m2 : List Bool) : Nat → Nat → Nat
  | k, 0 => k
  | k, fuel + 1 => if m2.getD k false then k else nextTrue m2 (k + 1) fuel

/-- One iteration of the transposition-counting loop; the state is the scan
pointer `k` and the transposition count. -/
def transStep (s1 s2 : List Char) (m1 m2 : List Bool) (st : Nat × Nat) (i : Nat) : Nat × Nat :=
  if m1.getD i false then
    let k := nextTrue m2 st.1 (m2.length + 1)
    (k + 1, if s1.getD i ' ' = s2.getD k ' ' then st.2 else st.2 + 1)
  else st

/-- The source's private `jaro` similarity on (already lowercased) strings. -/
def jaro (str1 str2 : List Char) : ℚ :=
  if str1 = [] ∨ str2 = [] then 0
  else if str1 = str2 then 1
  else
    let len1 := str1.length
    let len2 := str2.length
    let md : Int := ((max len1 len2) / 2 : Nat) - 1
    let st := (List.range len1).foldl (jaroStep str1 str2 md)
      ⟨List.replicate len1 false, List.replicate len2 false, 0⟩
    if st.m = 0 then 0
    else
      let kt := (List.range len1).foldl (transStep str1 str2 st.m1 st.m2) (0, 0)
      ((st.m : ℚ) / (len1 : ℚ) + (st.m : ℚ) / (len2 : ℚ) +
        ((st.m : ℚ) - (kt.2 : ℚ) / 2) / (st.m : ℚ)) / 3

/-- Common-prefix length capped by the fuel (source cap: `PREFIX_LENGTH = 4`). -/
def commonPrefixLen : List Char → List Char → Nat → Nat
  | c :: cs, d :: ds, fuel + 1 => if c = d then 1 + commonPrefixLen cs ds fuel else 0
  | _, _, _ => 0

/-- The source's `JaroWinklerMatcher.similarity`: Jaro score on the lowercased
strings plus the prefix bonus `prefixLength * 0.1 * (1 - jaro)`. -/
def JaroWinklerMatcher.similarity (str1 str2 : String) : ℚ :=
  if str1 = "" ∨ str2 = "" then 0
  else if str1 = str2 then 1
  else
    let s1 := str1.data.map jsToLowerChar
    let s2 := str2.data.map jsToLowerChar
    let j := jaro s1 s2
    let p := commonPrefixLen s1 s2 4
    j + (p : ℚ) * (1 / 10) * (1 - j)

/-- All overlapping 3-character windows of a character list. -/
def windows3 : List Char → List (List Char)
  | c1 :: c2 :: c3 :: rest => [c1, c2, c3] :: windows3 (c2 :: c3 :: rest)
  | _ => []

/-- The source's `TrigramMatcher.getTrigrams`: pad with two spaces on each
side, lowercase, and collect the distinct 3-character windows (a JS `Set`,
modelled as a duplicate-free list in insertion order). -/
def TrigramMatcher.getTrigrams (str : String) : List (List Char) :=
  let padded := [' ', ' '] ++ (str.data.map jsToLowerChar) ++ [' ', ' ']
  (windows3 padded).foldl (fun s w => if s.contains w then s else s ++ [w]) []

/-- The source's `TrigramMatcher.similarity` (Dice coefficient). -/
def TrigramMatcher.similarity (str1 str2 : String) : ℚ :=
  if str1 = "" ∨ str2 = "" then 0
  else if str1 = str2 then 1
  else
    let t1 := TrigramMatcher.getTrigrams str1
    let t2 := TrigramMatcher.getTrigrams str2
    if t1.length = 0 ∨ t2.length = 0 then 0
    else
      let inter := (t1.filter (fun w => t2.contains w)).length
      (2 * (inter : ℚ)) / ((t1.length : ℚ) + (t2.length : ℚ))

/-- The source's Soundex consonant-class mapping (`mapping[char] || '0'`). -/
def soundexCode (c : Char) : Char :=
  if c = 'B' ∨ c = 'F' ∨ c = 'P' ∨ c = 'V' then '1'
  else if c = 'C' ∨ c = 'G' ∨ c = 'J' ∨ c = 'K' ∨ c = 'Q' ∨ c = 'S' ∨ c = 'X' ∨ c = 'Z' then '2'
  else if c = 'D' ∨ c = 'T' then '3'
  else if c = 'L' then '4'
  else if c = 'M' ∨ c = 'N' then '5'
  else if c = 'R' then '6'
  else '0'

/-- Main Soundex encoding loop over the characters after the first one;
stops as soon as the code reaches 4 characters. -/
def soundexGo (prev : Char) (code : List Char) : List Char → List Char
  | [] => code
  | c :: cs =>
    if 4 ≤ code.length then code
    else
      let cur := soundexCode c
      if cur ≠ '0' ∧ cur ≠ prev then soundexGo cur (code ++ [cur]) cs
      else if cur ≠ '0' then soundexGo cur code cs
      else soundexGo prev code cs

/-- The source's `SoundexMatcher.encode`: uppercase, keep the first letter,
append consonant-class codes (skipping zeros and adjacent duplicates), pad
with zeros to length 4. -/
def SoundexMatcher.encode (str : String) : String :=
  if str = "" then ""
  else
    let upper := str.data.map jsToUpperChar
    let first := upper.headD ' '
    let code := soundexGo (soundexCode first) [first] (upper.drop 1)
    String.mk (code ++ List.replicate (4 - code.length) '0')

/-- The source's `SoundexMatcher.matches`. -/
def SoundexMatcher.matches (str1 str2 : String) : Bool :=
  if str1 = "" ∨ str2 = "" then false
  else decide (SoundexMatcher.encode str1 = SoundexMatcher.encode str2)

/-- The source's `SoundexMatcher.similarity` (binary). -/
def SoundexMatcher.similarity (str1 str2 : String) : ℚ :=
  if SoundexMatcher.matches str1 str2 then 1 else 0

/-- Weights of the composite similarity. -/
structure SimilarityWeights where
  levenshtein : ℚ
  jaroWinkler : ℚ
  trigram : ℚ
  soundex : ℚ
deriving DecidableEq

/-- Caller-supplied partial weights (merged over the defaults). -/
structure PartialSimWeights where
  levenshtein : Option ℚ
  jaroWinkler : Option ℚ
  trigram : Option ℚ
  soundex : Option ℚ
deriving DecidableEq

/-- The source's default weights `{0.3, 0.4, 0.2, 0.1}`. -/
def defaultWeights : SimilarityWeights :=
  ⟨0.3, 0.4, 0.2, 0.1⟩

/-- Merge `{...defaultWeights, ...weights}`. -/
def mergeWeights : Option PartialSimWeights → SimilarityWeights
  | none => defaultWeights
  | some p =>
    ⟨p.levenshtein.getD defaultWeights.levenshtein,
     p.jaroWinkler.getD defaultWeights.jaroWinkler,
     p.trigram.getD defaultWeights.trigram,
     p.soundex.getD defaultWeights.soundex⟩

/-- Result of the composite similarity: the blended score, the four
sub-scores, and the name of the dominant algorithm. -/
structure SimilarityResult where
  score : ℚ
  levenshtein : ℚ
  jaroWinkler : ℚ
  trigram : ℚ
  soundex : ℚ
  algorithm : String
deriving DecidableEq

/-- The source's `CompositeSimilarityMatcher.similarity`: weighted sum of the
four sub-scores plus the dominant-algorithm diagnostic. -/
def CompositeSimilarityMatcher.similarity (str1 str2 : String)
    (weights : Option PartialSimWeights) : SimilarityResult :=
  let w := mergeWeights weights
  let sLev := LevenshteinMatcher.similarity str1 str2
  let sJw := JaroWinklerMatcher.similarity str1 str2
  let sTri := TrigramMatcher.similarity str1 str2
  let sSnd := SoundexMatcher.similarity str1 str2
  let score := sLev * w.levenshtein + sJw * w.jaroWinkler + sTri * w.trigram + sSnd * w.soundex
  let maxScore := max sLev (max sJw (max sTri sSnd))
  let algorithm :=
    if sLev = maxScore then "LEVENSHTEIN"
    else if sJw = maxScore then "JARO_WINKLER"
    else if sTri = maxScore then "TRIGRAM"
    else if sSnd = maxScore then "SOUNDEX"
    else "COMPOSITE"
  ⟨score, sLev, sJw, sTri, sSnd, algorithm⟩

/-
Smart Matcher (source: `SmartMatcher` in the matching module). The five SOSL
queries hit the remote search service; their unioned, deduplicated result
list (each record tagged with the patterns that surfaced it, `matchedBy`)
is modeled as the input of the pure scoring pipeline.
-/

/-- Match confidence tiers. -/
inductive MatchConfidence where
  | HIGH
  | MEDIUM
  | LOW
deriving DecidableEq

/-- A record returned by the unioned SOSL queries: its id, its field values,
and the list of search strategies that surfaced it. -/
structure SRec where
  id : String
  vals : List (String × String)
  matchedBy : List String
deriving DecidableEq

/-- Search configuration (`SearchConfig` of the source, minus the fields that
only shape the outgoing SOSL text). -/
structure SearchConfig where
  field : String
  sobject : String
  limit : Option Nat
  minConfidence : Option MatchConfidence
  similarityWeights : Option PartialSimWeights
deriving DecidableEq

/-- A scored match (`MatchResult` of the source). -/
structure MatchResult where
  record : SRec
  confidence : MatchConfidence
  score : ℚ
  matchedBy : List String
  normalizedInput : String
  normalizedRecord : String
deriving DecidableEq

/-- Field-type-aware normalization (`SmartMatcher.normalizeForField`). -/
def SmartMatcher.normalizeForField (value field : String) : String :=
  if value = "" then ""
  else
    let fieldLower := jsToLowerStr field
    if containsSub fieldLower "email" then TextNormalizer.normalizeEmail value
    else if containsSub fieldLower "account" || decide (fieldLower = "name") then
      TextNormalizer.normalizeCompanyName value
    else if containsSub fieldLower "firstname" || containsSub fieldLower "lastname" ||
        containsSub fieldLower "fullname" then
      TextNormalizer.normalizePersonName value
    else TextNormalizer.normalizeForSearch value

/-- The `record[field] || ''` read of the candidate's matched field value. -/
def recFieldValue (rec : SRec) (field : String) : String :=
  match (rec.vals.find? (fun kv => kv.1 = field)).map (fun kv => kv.2) with
  | some s => s
  | none => ""

/-- Score one SOSL record: composite similarity of the normalized input and
the normalized candidate field value, a 5% boost per matching strategy beyond
the first (capped at 1.0 in that branch), and the confidence tier from the
thresholds HIGH ≥ 0.95, MEDIUM ≥ 0.75. -/
def SmartMatcher.scoreOne (normalizedInput field : String) (cfg : SearchConfig)
    (rec : SRec) : MatchResult :=
  let recordValue := recFieldValue rec field
  let normalizedRecord := SmartMatcher.normalizeForField recordValue field
  let sim := CompositeSimilarityMatcher.similarity normalizedInput normalizedRecord cfg.similarityWeights
  let boostedScore :=
    if 1 < rec.matchedBy.length then
      min 1 (sim.score + ((rec.matchedBy.length - 1 : Nat) : ℚ) * 0.05)
    else sim.score
  let confidence :=
    if 0.95 ≤ boostedScore then MatchConfidence.HIGH
    else if 0.75 ≤ boostedScore then MatchConfidence.MEDIUM
    else MatchConfidence.LOW
  ⟨rec, confidence, boostedScore, rec.matchedBy, normalizedInput, normalizedRecord⟩

/-- The source's `SmartMatcher.scoreResults`. -/
def SmartMatcher.scoreResults (records : List SRec) (normalizedInput field : String)
    (cfg : SearchConfig) : List MatchResult :=
  records.map (SmartMatcher.scoreOne normalizedInput field cfg)

/-- Numeric confidence order used by the minimum-confidence filter. -/
def confidenceOrder : MatchConfidence → Nat
  | .HIGH => 3
  | .MEDIUM => 2
  | .LOW => 1

/-- The source's `SmartMatcher.filterByConfidence`. -/
def SmartMatcher.filterByConfidence (results : List MatchResult)
    (minConfidence : MatchConfidence) : List MatchResult :=
  results.filter (fun r => confidenceOrder minConfidence ≤ confidenceOrder r.confidence)

/-- Stable insertion of `x` (arriving before every element of the sorted
tail) in front of the first element it may precede. -/
def insertLe {α : Type} (le : α → α → Bool) (x : α) : List α → List α
  | [] => [x]
  | y :: ys => if le x y then x :: y :: ys else y :: insertLe le x ys

/-- Stable sort with respect to a total boolean preorder, modelling
`Array.prototype.sort` with a consistent comparator (`le a b` meaning the
comparator puts `a` at or before `b`). -/
def jsSortBy {α : Type} (le : α → α → Bool) : List α → List α
  | [] => []
  | x :: xs => insertLe le x (jsSortBy le xs)

/-- The source's `SmartMatcher.findMatches` downstream of the SOSL union:
normalize the input, score every record, sort by score descending, truncate
to the limit (default 10), optionally filter by minimum confidence. -/
def SmartMatcher.findMatches (soslRecords : List SRec) (searchTerm : String)
    (cfg : SearchConfig) : List MatchResult :=
  let limit := cfg.limit.getD 10
  let normalizedInput := SmartMatcher.normalizeForField searchTerm cfg.field
  let scored := SmartMatcher.scoreResults soslRecords normalizedInput cfg.field cfg
  let sorted := (jsSortBy (fun a b => decide (b.score ≤ a.score)) scored).take limit
  match cfg.minConfidence with
  | some mc => SmartMatcher.filterByConfidence sorted mc
  | none => sorted

/-
Metadata store rows and the Cache Manager staleness logic
(source: `MetadataDatabase` and `MetadataCacheManager`).
-/

/-- An `sobjects` row (the columns the embedded logic reads); `synced_at` is
kept as a millisecond timestamp. -/
structure SObjRow where
  is_createable : Bool
  is_updateable : Bool
  synced_at : Option Int
deriving DecidableEq

/-- A `fields` row (the columns the validator reads); `picklist_values` holds
the parsed JSON value list. -/
structure FieldRow where
  name : String
  label : String
  type : String
  length : Option Nat
  precision_val : Option Nat
  scale : Option Nat
  is_required : Bool
  default_value : Option String
  picklist_values : Option (List String)
deriving DecidableEq

/-- A `validation_rules` row (active rules only, as `getValidationRules`
returns them). -/
structure VRuleRow where
  name : String
  error_message : String
  formula : String
deriving DecidableEq

/-- A `relationships` row joined with its field name and target object, as
`getRelationships` returns it. -/
structure RelRow where
  field_name : String
  to_sobject : String
  is_required : Bool
deriving DecidableEq

/-- The metadata store's read surface, as a record of query functions. -/
structure MetadataDatabase where
  getSObject : String → Option SObjRow
  getFields : String → List FieldRow
  getValidationRules : String → List VRuleRow
  getRelationships : String → List RelRow

/-- The source's `getRequiredFields` SQL (`WHERE ... f.is_required = 1`). -/
def getRequiredFields (db : MetadataDatabase) (sobjectName : String) : List FieldRow :=
  (db.getFields sobjectName).filter (fun f => f.is_required)

/-- The source's `MetadataDatabase.isMetadataStale`: missing row, missing
`synced_at`, or `now - syncedTime > ttlMs`. -/
def isMetadataStale (now : Int) (db : MetadataDatabase) (name : String) (ttlMs : Int) : Bool :=
  match db.getSObject name with
  | none => true
  | some sobject =>
    match sobject.synced_at with
    | none => true
    | some syncedTime => decide (ttlMs < now - syncedTime)

/-- The cache manager's `findMissingOrStale`. -/
def findMissingOrStale (now : Int) (db : MetadataDatabase) (ttlMs : Int)
    (objects : List String) : List String :=
  objects.filter (fun obj => isMetadataStale now db obj ttlMs)

/-- The cache manager's `ensureMetadata`: the returned value is the argument
of the single `syncObjects` call it makes (`none` when no sync is issued). -/
def ensureMetadata (now : Int) (db : MetadataDatabase) (ttlMs : Int)
    (objects : List String) : Option (List String) :=
  if objects.length = 0 then none
  else
    let missing := findMissingOrStale now db ttlMs objects
    if 0 < missing.length then some missing else none

/-
Preflight Validator (source: `PreflightValidator`).
-/

/-- One validation error/warning/suggestion entry. -/
structure ValidationIssue where
  field : String
  message : String
  type : String
  suggestion : Option String
deriving DecidableEq

/-- A validation result: the `valid` flag plus the three issue lists. -/
structure ValidationResult where
  valid : Bool
  errors : List ValidationIssue
  warnings : List ValidationIssue
  suggestions : List ValidationIssue
deriving DecidableEq

/-- The `result.valid = false; result.errors.push(...)` pattern. -/
def pushError (r : ValidationResult) (i : ValidationIssue) : ValidationResult :=
  { r with valid := false, errors := r.errors ++ [i] }

/-- An appended warning (never touches `valid`). -/
def pushWarning (r : ValidationResult) (i : ValidationIssue) : ValidationResult :=
  { r with warnings := r.warnings ++ [i] }

/-- An appended suggestion (never touches `valid`). -/
def pushSuggestion (r : ValidationResult) (i : ValidationIssue) : ValidationResult :=
  { r with suggestions := r.suggestions ++ [i] }

/-- System fields auto-populated by the remote service. -/
def systemFields : List String :=
  ["Id", "IsDeleted", "CreatedDate", "CreatedById", "LastModifiedDate",
   "LastModifiedById", "SystemModstamp", "LastViewedDate", "LastReferencedDate"]

/-- Boolean fields the remote service auto-populates to false. -/
def booleanDefaultFields : List String :=
  ["IsExcludedFromRealign", "IsPartner", "IsCustomerPortal",
   "HasOptedOutOfEmail", "HasOptedOutOfFax", "DoNotCall",
   "IsEmailBounced", "IsPriorityRecord"]

/-- Fields with auto-defaults (owner defaults to the current user). -/
def autoDefaultedFields : List String :=
  ["OwnerId"]

/-- The full exclusion set of the required-field check. -/
def excludedFields : List String :=
  systemFields ++ booleanDefaultFields ++ autoDefaultedFields

/-- Filter of `userRequiredFields`: drop excluded names and fields carrying a
non-empty default value. -/
def keepUserRequired (f : FieldRow) : Bool :=
  !(excludedFields.contains f.name) &&
  (match f.default_value with
   | some s => decide (s = "")
   | none => true)

/-- Payload test `data[f] === undefined || === null || === ''`. -/
def missingInPayload (data : List (String × JValue)) (fname : String) : Bool :=
  match jlookup data fname with
  | none => true
  | some .jnull => true
  | some (.jstr s) => decide (s = "")
  | some _ => false

/-- The `REQUIRED_FIELD` error entry for one field. -/
def requiredFieldIssue (f : FieldRow) : ValidationIssue :=
  ⟨f.name, "Required field " ++ f.label ++ " is missing or empty.",
   "REQUIRED_FIELD", some ("Provide a value for " ++ f.name ++ " (" ++ f.type ++ ")")⟩

/-- Loop body of `validateRequiredFields`. -/
def requiredFieldStep (data : List (String × JValue)) (r : ValidationResult)
    (f : FieldRow) : ValidationResult :=
  if missingInPayload data f.name then pushError r (requiredFieldIssue f) else r

/-- The source's `validateRequiredFields`. -/
def validateRequiredFields (requiredFields : List FieldRow)
    (data : List (String × JValue)) (r : ValidationResult) : ValidationResult :=
  let userRequiredFields := requiredFields.filter keepUserRequired
  userRequiredFields.foldl (requiredFieldStep data) r

/-- The source's `typeMap` lookup with the `['any']` fallback. -/
def typeMapLookup (fieldType : String) : List String :=
  if fieldType = "string" ∨ fieldType = "textarea" ∨ fieldType = "email" ∨
      fieldType = "url" ∨ fieldType = "phone" ∨ fieldType = "picklist" ∨
      fieldType = "multipicklist" ∨ fieldType = "id" ∨ fieldType = "reference" then ["string"]
  else if fieldType = "int" ∨ fieldType = "double" ∨ fieldType = "currency" ∨
      fieldType = "percent" then ["number"]
  else if fieldType = "boolean" then ["boolean"]
  else if fieldType = "date" ∨ fieldType = "datetime" ∨ fieldType = "time" then ["string"]
  else ["any"]

/-- The source's `validateFieldType`. -/
def validateFieldType (field : FieldRow) (value : JValue) (r : ValidationResult) : ValidationResult :=
  let fieldType := jsToLowerStr field.type
  let valueType := typeofJ value
  let expectedTypes := typeMapLookup fieldType
  if !(expectedTypes.contains "any") && !(expectedTypes.contains valueType) then
    pushError r
      ⟨field.name,
       "Field " ++ field.label ++ " expects type " ++ String.intercalate " or " expectedTypes ++
         " but got " ++ valueType ++ ".",
       "TYPE_MISMATCH", some ("Convert value to " ++ expectedTypes.headD "any")⟩
  else r

/-- The source's `validatePicklist` (`validValues.includes(value)` with JS
strict equality, so a non-string value is never included). -/
def validatePicklist (field : FieldRow) (value : JValue) (r : ValidationResult) : ValidationResult :=
  let validValues := field.picklist_values.getD []
  let isIn := match value with
    | .jstr s => validValues.contains s
    | _ => false
  if !isIn then
    pushError r
      ⟨field.name, "Invalid picklist value for field " ++ field.label ++ ".",
       "INVALID_PICKLIST_VALUE",
       some ("Valid values: " ++ String.intercalate ", " (validValues.take 10) ++
         (if 10 < validValues.length then "..." else ""))⟩
  else r

/-- Number of decimal digits after the point in the JS rendering of a number,
modelled for exactly-representable decimal fractions (the smallest power of
ten clearing the denominator, with the source's 17-significant-digit rendering
as fallback); this quantity only feeds warnings. -/
def ratFracDigits (q : ℚ) : Nat :=
  match (List.range 21).find? (fun k => decide ((q * (10 : ℚ) ^ k).den = 1)) with
  | some k => k
  | none => 17

/-- Length of `value.toString().replace('.', '')` under the same decimal
rendering model (integer digits incl. a leading 0, fraction digits, sign). -/
def ratTotalDigits (q : ℚ) : Nat :=
  let k := ratFracDigits q
  let intDigits := (toString (q.num.natAbs / q.den)).length
  (if q < 0 then 1 else 0) + intDigits + k

/-- Precision half of the source's `validateNumber` (warning only; the
`if (field.precision_val)` truthiness makes a zero precision a no-op). -/
def precisionWarn (field : FieldRow) (q : ℚ) (r : ValidationResult) : ValidationResult :=
  match field.precision_val with
  | some p =>
    if 0 < p ∧ p < ratTotalDigits q then
      pushWarning r
        ⟨field.name, "Field " ++ field.label ++ " may exceed precision of " ++
           toString p ++ " digits.", "PRECISION_WARNING", none⟩
    else r
  | none => r

/-- Scale half of the source's `validateNumber` (warning only; the source
checks `!== null/undefined`, so scale 0 is enforced). -/
def scaleWarn (field : FieldRow) (q : ℚ) (r : ValidationResult) : ValidationResult :=
  match field.scale with
  | some sc =>
    if sc < ratFracDigits q then
      pushWarning r
        ⟨field.name, "Field " ++ field.label ++ " has " ++ toString (ratFracDigits q) ++
           " decimal places but max is " ++ toString sc ++ ".",
         "SCALE_WARNING", some ("Round to " ++ toString sc ++ " decimal places")⟩
    else r
  | none => r

/-- The source's `validateNumber` (precision/scale produce warnings only). -/
def validateNumber (field : FieldRow) (q : ℚ) (r : ValidationResult) : ValidationResult :=
  scaleWarn field q (precisionWarn field q r)

/-- Length check of `validateFields` (fatal on overflow; the `field.length`
truthiness makes a zero declared length a no-op). -/
def lengthCheck (field : FieldRow) (value : JValue) (r : ValidationResult) : ValidationResult :=
  if field.type = "string" then
    match field.length, value with
    | some len, .jstr s =>
      if 0 < len ∧ len < s.data.length then
        pushError r
          ⟨field.name, "Field " ++ field.label ++ " exceeds maximum length of " ++
             toString len ++ " characters.", "LENGTH_EXCEEDED", none⟩
      else r
    | _, _ => r
  else r

/-- Numeric check dispatch of `validateFields`. -/
def numberCheck (field : FieldRow) (value : JValue) (r : ValidationResult) : ValidationResult :=
  match value with
  | .jnum q =>
    if field.type = "double" ∨ field.type = "currency" ∨ field.type = "percent" then
      validateNumber field q r
    else r
  | _ => r

/-- Loop body of `validateFields` for one payload entry: unknown-field
warning, else (skipping nulls) type, length, picklist and numeric checks. -/
def validateFieldEntry (allFields : List FieldRow) (kv : String × JValue)
    (r : ValidationResult) : ValidationResult :=
  match allFields.find? (fun f => f.name = kv.1) with
  | none =>
    pushWarning r
      ⟨kv.1, "Field " ++ kv.1 ++ " not found in metadata. It may not exist or you may lack access.",
       "UNKNOWN_FIELD", none⟩
  | some field =>
    if kv.2 = JValue.jnull then r
    else
      let r1 := validateFieldType field kv.2 r
      let r2 := lengthCheck field kv.2 r1
      let r3 :=
        if field.type = "picklist" ∧ field.picklist_values.isSome then
          validatePicklist field kv.2 r2
        else r2
      numberCheck field kv.2 r3

/-- The source's `validateFields`. -/
def validateFields (allFields : List FieldRow) (data : List (String × JValue))
    (r : ValidationResult) : ValidationResult :=
  data.foldl (fun r kv => validateFieldEntry allFields kv r) r

/-- The source's `checkValidationRules` (count surfaced as one warning). -/
def checkValidationRules (db : MetadataDatabase) (sobjectName : String)
    (r : ValidationResult) : ValidationResult :=
  let validationRules := db.getValidationRules sobjectName
  if 0 < validationRules.length then
    pushWarning r
      ⟨"__validation_rules__",
       "This object has " ++ toString validationRules.length ++
         " active validation rule(s) that may prevent save.",
       "VALIDATION_RULES_EXIST", none⟩
  else r

/-- System-managed relationship fields skipped by the relationship check. -/
def systemRelationships : List String :=
  ["OwnerId", "CreatedById", "LastModifiedById", "RecordTypeId"]

/-- Loop body of `checkRelationships` for one relationship edge. -/
def checkRelEntry (data : List (String × JValue)) (rel : RelRow)
    (r : ValidationResult) : ValidationResult :=
  if systemRelationships.contains rel.field_name then r
  else
    let r1 :=
      if rel.is_required ∧ jsTruthy (jlookup data rel.field_name) = false then
        pushError r
          ⟨rel.field_name,
           "Required relationship field " ++ rel.field_name ++ " to " ++
             rel.to_sobject ++ " is missing.",
           "REQUIRED_RELATIONSHIP",
           some ("Create or reference a " ++ rel.to_sobject ++ " record first")⟩
      else r
    if jsTruthy (jlookup data rel.field_name) then
      pushSuggestion r1
        ⟨rel.field_name, "Ensure the referenced " ++ rel.to_sobject ++ " record exists.",
         "REFERENCE_CHECK", none⟩
    else r1

/-- The source's `checkRelationships`. -/
def checkRelationships (db : MetadataDatabase) (sobjectName : String)
    (data : List (String × JValue)) (r : ValidationResult) : ValidationResult :=
  (db.getRelationships sobjectName).foldl (fun r rel => checkRelEntry data rel r) r

/-- The source's `PreflightValidator.validateCreate`. -/
def PreflightValidator.validateCreate (db : MetadataDatabase) (sobjectName : String)
    (data : List (String × JValue)) : ValidationResult :=
  let r0 : ValidationResult := ⟨true, [], [], []⟩
  match db.getSObject sobjectName with
  | none =>
    pushError r0
      ⟨"__sobject__", "Object " ++ sobjectName ++ " not found in metadata. Run metadata sync first.",
       "METADATA_NOT_FOUND", none⟩
  | some sobject =>
    if sobject.is_createable = false then
      pushError r0
        ⟨"__sobject__", "Object " ++ sobjectName ++ " is not createable. Check CRUD permissions.",
         "CRUD_PERMISSION", none⟩
    else
      let allFields := db.getFields sobjectName
      let requiredFields := getRequiredFields db sobjectName
      let r1 := validateRequiredFields requiredFields data r0
      let r2 := validateFields allFields data r1
      let r3 := checkValidationRules db sobjectName r2
      checkRelationships db sobjectName data r3

/-- The source's `PreflightValidator.validateUpdate` (no required-field check;
the record id does not influence the result). -/
def PreflightValidator.validateUpdate (db : MetadataDatabase) (sobjectName : String)
    (recordId : String) (data : List (String × JValue)) : ValidationResult :=
  let r0 : ValidationResult := ⟨true, [], [], []⟩
  match db.getSObject sobjectName with
  | none =>
    pushError r0
      ⟨"__sobject__", "Object " ++ sobjectName ++ " not found in metadata. Run metadata sync first.",
       "METADATA_NOT_FOUND", none⟩
  | some sobject =>
    if sobject.is_updateable = false then
      pushError r0
        ⟨"__sobject__", "Object " ++ sobjectName ++ " is not updateable. Check CRUD permissions.",
         "CRUD_PERMISSION", none⟩
    else
      let allFields := db.getFields sobjectName
      let r2 := validateFields allFields data r0
      let r3 := checkValidationRules db sobjectName r2
      checkRelationships db sobjectName data r3

/-
Dependency Resolver (source: `DependencyResolver`). The metadata lookups it
needs (`db.getRelationships`) come in as a function parameter, and the remote
data service is an oracle of pure functions; `executeWithDependencies`'s
metadata-warmup calls are cache-side effects with no influence on the graph,
so the pipeline below starts at graph construction.
-/

/-- Operation kinds of a `RecordOperation`. -/
inductive OpType where
  | create
  | update
  | delete
deriving DecidableEq

/-- One unit of work in a batch (source interface `RecordOperation`). -/
structure RecordOperation where
  type : OpType
  sobject : String
  data : List (String × JValue)
  tempId : Option String
  recordId : Option String
deriving DecidableEq

/-- A dependency-graph node wrapping one operation. -/
structure GraphNode where
  id : String
  operation : RecordOperation
  dependencies : List String
  dependents : List String
  level : Nat
  executed : Bool
  tempId : Option String
deriving DecidableEq

/-- A dependency edge: `toId`'s operation references `fromId`'s temporary id
through `field` (source interface `DependencyEdge`; `from`/`to` are renamed
because `from` is a Lean keyword). -/
structure DependencyEdge where
  fromId : String
  toId : String
  field : String
  type : String
deriving DecidableEq

/-- The dependency graph. -/
structure DependencyGraph where
  nodes : List GraphNode
  edges : List DependencyEdge
deriving DecidableEq

/-- A detected cycle. -/
structure CircularDependency where
  nodes : List String
  path : List String
deriving DecidableEq

/-- A cycle break point. -/
structure BreakPoint where
  nodeId : String
  field : String
  strategy : String
deriving DecidableEq

/-- One execution batch of the plan. -/
structure ExecutionBatch where
  level : Nat
  operations : List RecordOperation
  nodeIds : List String
  canParallelize : Bool
  breakPoints : List BreakPoint
deriving DecidableEq

/-- Per-operation execution result (source interface `OperationResult`). -/
structure OperationResult where
  tempId : Option String
  sobject : String
  type : OpType
  success : Bool
  id : Option String
  errors : List String
deriving DecidableEq

/-- A collected execution error. -/
structure ExecutionError where
  message : String
  phase : String
  operation : Option RecordOperation
deriving DecidableEq

/-- Result of a remote create/update/delete call. -/
structure SaveRes where
  success : Bool
  id : Option String
  errors : List String
deriving DecidableEq

/-- The remote data service, as an oracle of pure functions. -/
structure SvcOracle where
  createRecord : String → List (String × JValue) → SaveRes
  updateRecord : String → String → List (String × JValue) → SaveRes
  deleteRecord : String → String → SaveRes

/-- Temporary-reference values found in a payload, paired with the id of the
node whose `tempId` they name (the graph-construction scan of one node). -/
def refsOf (nodes : List GraphNode) (data : List (String × JValue)) : List (String × String) :=
  data.filterMap
    (fun kv =>
      match kv.2 with
      | .jstr s =>
        if startsWithAt s then
          (nodes.find? (fun n => n.tempId = some s)).map (fun rn => (kv.1, rn.id))
        else none
      | _ => none)

/-- Node construction of `buildDependencyGraph`: one node `op_i` per
operation, dependency lists still empty. -/
def graphNodes0 (operations : List RecordOperation) : List GraphNode :=
  operations.enum.map
    (fun p =>
      { id := "op_" ++ toString p.1, operation := p.2, dependencies := [],
        dependents := [], level := 0, executed := false, tempId := p.2.tempId })

/-- Edge construction of `buildDependencyGraph`: one edge per
temporary-reference payload value that names another operation's temporary
id. -/
def graphEdges (nodes0 : List GraphNode) : List DependencyEdge :=
  nodes0.flatMap
    (fun nd => (refsOf nodes0 nd.operation.data).map
      (fun fr => { fromId := fr.2, toId := nd.id, field := fr.1, type := "required" }))

/-- The source's `buildDependencyGraph` (the required-relationship scan in
the source only logs). -/
def buildDependencyGraph (operations : List RecordOperation) : DependencyGraph :=
  let nodes0 := graphNodes0 operations
  let edges := graphEdges nodes0
  let nodes := nodes0.map
    (fun nd =>
      { nd with
        dependencies := (refsOf nodes0 nd.operation.data).map (fun fr => fr.2)
        dependents := (edges.filter (fun e => e.fromId = nd.id)).map (fun e => e.toId) })
  { nodes := nodes, edges := edges }

/-- The payload fields whose value is a temporary reference (a string
starting with `@`), in payload order. -/
def refFields (data : List (String × JValue)) : List String :=
  data.filterMap
    (fun kv =>
      match kv.2 with
      | .jstr s => if startsWithAt s then some kv.1 else none
      | _ => none)

/-- A payload with every temporary-reference value replaced by the real id
`rid` (the output shape of `resolveData` when every reference resolves to
`rid`). -/
def resolvedPayload (rid : String) (data : List (String × JValue)) :
    List (String × JValue) :=
  data.map
    (fun kv =>
      match kv.2 with
      | .jstr s => if startsWithAt s then (kv.1, JValue.jstr rid) else kv
      | _ => kv)

/-- DFS state: visited set, recursion stack, collected cycles. -/
structure DfsSt where
  visited : List String
  recStack : List String
  circular : List CircularDependency
deriving DecidableEq

/-- Iterate the dependency list of the node currently on top of the DFS; on an
unvisited dependency, descend (mark it, extend the path, recurse into its own
dependencies); a dependency on the recursion stack records a cycle and aborts
the traversal with `true` (the stack is then deliberately left unpopped, as in
the source). The fuel decreases on every step; with the bound supplied by
`detectCircularDependencies` it never runs out, because every step either
consumes one dependency entry (each is iterated at most once, its node being
marked visited) or descends into a not-yet-visited node. -/
def dfsList (graph : DependencyGraph) : Nat → List String → List String → DfsSt → Bool × DfsSt
  | 0, _, _, st => (false, st)
  | _ + 1, [], _, st => (false, st)
  | fuel + 1, depId :: rest, path, st =>
    if st.visited.contains depId then
      if st.recStack.contains depId then
        let cycle := path.drop (path.findIdx (fun x => x == depId))
        (true, { st with circular := st.circular ++ [⟨cycle, cycle⟩] })
      else dfsList graph fuel rest path st
    else
      let st1 : DfsSt := { st with visited := depId :: st.visited, recStack := depId :: st.recStack }
      let path1 := path ++ [depId]
      let inner :=
        match graph.nodes.find? (fun n => n.id = depId) with
        | none => (false, st1)
        | some node => dfsList graph fuel node.dependencies path1 st1
      if inner.1 then (true, inner.2)
      else
        dfsList graph fuel rest path
          { inner.2 with recStack := inner.2.recStack.filter (fun x => !(x == depId)) }

/-- Fuel bound for the DFS: one unit per node plus one per dependency entry. -/
def dfsFuel (graph : DependencyGraph) : Nat :=
  graph.nodes.length + (graph.nodes.map (fun n => n.dependencies.length)).sum + 1

/-- One root step of `detectCircularDependencies`: start a DFS from a
not-yet-visited node. -/
def dfsStart (graph : DependencyGraph) (st : DfsSt) (node : GraphNode) : DfsSt :=
  if st.visited.contains node.id then st
  else
    let st1 : DfsSt :=
      { st with visited := node.id :: st.visited, recStack := node.id :: st.recStack }
    let res := dfsList graph (dfsFuel graph) node.dependencies [node.id] st1
    if res.1 then res.2
    else { res.2 with recStack := res.2.recStack.filter (fun x => !(x == node.id)) }

/-- The source's `detectCircularDependencies`: run the DFS from every
not-yet-visited node with an empty path. -/
def detectCircularDependencies (graph : DependencyGraph) : List CircularDependency :=
  (graph.nodes.foldl (dfsStart graph) ⟨[], [], []⟩).circular

/-- Scan the edges of one cycle for the first whose target field is a
non-required relationship; mark that target as a create-then-update break
point (the source's per-cycle loop with `break`). -/
def findBreakPointIn (rels : String → List RelRow) (graph : DependencyGraph)
    (cycle : CircularDependency) : List BreakPoint :=
  let n := cycle.nodes.length
  (List.range n).foldl
    (fun acc i =>
      if acc.length > 0 then acc
      else
        let fromNodeId := cycle.nodes.getD i ""
        let toNodeId := cycle.nodes.getD ((i + 1) % n) ""
        match graph.edges.find? (fun e => e.fromId = fromNodeId ∧ e.toId = toNodeId) with
        | some edge =>
          match graph.nodes.find? (fun nd => nd.id = toNodeId) with
          | some toNode =>
            match (rels toNode.operation.sobject).find? (fun rl => rl.field_name = edge.field) with
            | some rl =>
              if rl.is_required = false then
                [⟨toNodeId, edge.field, "create-then-update"⟩]
              else acc
            | none => acc
          | none => acc
        | none => acc)
    []

/-- The source's `identifyCircularBreakPoints`. -/
def identifyCircularBreakPoints (rels : String → List RelRow) (graph : DependencyGraph)
    (circular : List CircularDependency) : List BreakPoint :=
  circular.foldl (fun acc cycle => acc ++ findBreakPointIn rels graph cycle) []

/-- In-place level update of the node with the given id. -/
def setLevel (nodes : List GraphNode) (nodeId : String) (lvl : Nat) : List GraphNode :=
  nodes.map (fun n => if n.id = nodeId then { n with level := lvl } else n)

/-- Inner dependency loop of one relaxation pass for one node: each
dependency whose level is not yet strictly below the node's level bumps the
node's level to `depLevel + 1` (break-point nodes skip all of their
dependencies); the node's level is re-read from the current state at every
step, as the source's mutation does. -/
def relaxDeps (breakIds : List String) (nodeId : String) :
    List String → List GraphNode → Bool → List GraphNode × Bool
  | [], nodes, changed => (nodes, changed)
  | depId :: rest, nodes, changed =>
    if breakIds.contains nodeId then relaxDeps breakIds nodeId rest nodes changed
    else
      match nodes.find? (fun n => n.id = nodeId), nodes.find? (fun n => n.id = depId) with
      | some nd, some depNode =>
        if nd.level ≤ depNode.level then
          relaxDeps breakIds nodeId rest (setLevel nodes nodeId (depNode.level + 1)) true
        else relaxDeps breakIds nodeId rest nodes changed
      | _, _ => relaxDeps breakIds nodeId rest nodes changed

/-- One full pass of the relaxation over all nodes (the `(id, dependencies)`
pairs are fixed up front: the loop mutates only levels). -/
def levelPass (breakIds : List String) (pairs : List (String × List String))
    (nodes : List GraphNode) : List GraphNode × Bool :=
  pairs.foldl
    (fun acc p =>
      let r := relaxDeps breakIds p.1 p.2 acc.1 acc.2
      r)
    (nodes, false)

/-- The source's `while (changed)` loop; the fuel bounds the number of passes
(`nodes.length + 1` passes reach the fixpoint whenever the source's loop
terminates, since in a cycle-free graph levels are below the node count). -/
def calcLoop (breakIds : List String) (pairs : List (String × List String)) :
    Nat → List GraphNode → List GraphNode
  | 0, nodes => nodes
  | fuel + 1, nodes =>
    let r := levelPass breakIds pairs nodes
    if r.2 then calcLoop breakIds pairs fuel r.1 else r.1

/-- The source's `calculateNodeLevels` (levels reset to 0, then relaxed to a
fixpoint, skipping dependencies of break-point nodes). -/
def calculateNodeLevels (graph : DependencyGraph) (breakPoints : List BreakPoint) :
    DependencyGraph :=
  let breakIds := breakPoints.map (fun bp => bp.nodeId)
  let nodes0 := graph.nodes.map (fun n => { n with level := 0 })
  let pairs := nodes0.map (fun n => (n.id, n.dependencies))
  { graph with nodes := calcLoop breakIds pairs (nodes0.length + 1) nodes0 }

/-- Duplicate-free list of the levels present, in first-appearance order
(the `Map` key order of the source). -/
def levelKeys (nodes : List GraphNode) : List Nat :=
  nodes.foldl (fun acc n => if acc.contains n.level then acc else acc ++ [n.level]) []

/-- The source's `generateExecutionPlan`: break the cycles, compute levels,
group nodes by level, and emit the batches in ascending level order, each
flagged parallelizable exactly when it holds more than one node. -/
def generateExecutionPlan (rels : String → List RelRow) (graph : DependencyGraph)
    (circular : List CircularDependency) : List ExecutionBatch :=
  let breakPoints := identifyCircularBreakPoints rels graph circular
  let g := calculateNodeLevels graph breakPoints
  let sortedLevels := jsSortBy (fun a b => decide (a ≤ b)) (levelKeys g.nodes)
  sortedLevels.map
    (fun lvl =>
      let nds := g.nodes.filter (fun n => n.level = lvl)
      { level := lvl
        operations := nds.map (fun n => n.operation)
        nodeIds := nds.map (fun n => n.id)
        canParallelize := decide (1 < nds.length)
        breakPoints := breakPoints.filter (fun bp => nds.any (fun n => n.id == bp.nodeId)) })

/-- The accumulated tempId-to-realId map (`idMap`), as an association list
with map semantics (`set` replaces an existing binding). -/
def mapSet (m : List (String × String)) (k v : String) : List (String × String) :=
  if m.any (fun kv => kv.1 == k) then
    m.map (fun kv => if kv.1 = k then (k, v) else kv)
  else m ++ [(k, v)]

/-- Map lookup (`idMap.get`). -/
def mapGet (m : List (String × String)) (k : String) : Option String :=
  (m.find? (fun kv => kv.1 = k)).map (fun kv => kv.2)

/-- Temporary-id resolution loop of `executeOperation`: every string value
starting with `@` is replaced by its mapped real id; an unmapped reference
throws. -/
def resolveData (idMap : List (String × String)) :
    List (String × JValue) → Except String (List (String × JValue))
  | [] => .ok []
  | kv :: rest =>
    match kv.2 with
    | .jstr s =>
      if startsWithAt s then
        match mapGet idMap s with
        | some realId =>
          (resolveData idMap rest).map (fun tail => (kv.1, JValue.jstr realId) :: tail)
        | none => .error ("Cannot resolve reference " ++ s ++ " in " ++ kv.1)
      else (resolveData idMap rest).map (fun tail => kv :: tail)
    | _ => (resolveData idMap rest).map (fun tail => kv :: tail)

/-- Package a service result as an `OperationResult` for one operation. -/
def mkOpResult (op : RecordOperation) (res : SaveRes) : OperationResult :=
  { tempId := op.tempId, sobject := op.sobject, type := op.type,
    success := res.success, id := res.id, errors := res.errors }

/-- The source's `executeOperation`: resolve temporary references, then
dispatch by operation type (update/delete require a record id); a `.error`
value models a thrown exception. -/
def executeOperation (sv : SvcOracle) (idMap : List (String × String))
    (op : RecordOperation) : Except String OperationResult :=
  match resolveData idMap op.data with
  | .error m => .error m
  | .ok resolvedData =>
    match op.type with
    | .create => .ok (mkOpResult op (sv.createRecord op.sobject resolvedData))
    | .update =>
      match op.recordId with
      | none => .error "Update operation requires recordId"
      | some rid => .ok (mkOpResult op (sv.updateRecord op.sobject rid resolvedData))
    | .delete =>
      match op.recordId with
      | none => .error "Delete operation requires recordId"
      | some rid => .ok (mkOpResult op (sv.deleteRecord op.sobject rid))

/-- Execution state threaded through `executePlan`: collected results,
collected errors, and the tempId-to-realId map. -/
structure ExecSt where
  results : List OperationResult
  errors : List ExecutionError
  idMap : List (String × String)
deriving DecidableEq

/-- The `if (op.tempId && result.id)` idMap update. -/
def updateIdMap (idMap : List (String × String)) (op : RecordOperation)
    (res : OperationResult) : List (String × String) :=
  match op.tempId, res.id with
  | some t, some realId => mapSet idMap t realId
  | _, _ => idMap

/-- Sequential branch of a batch: operations run in order; a throw records
the error for the failing operation and rethrows (the returned message),
aborting the remainder. -/
def execSeq (sv : SvcOracle) : List RecordOperation → ExecSt → ExecSt × Option String
  | [], st => (st, none)
  | op :: rest, st =>
    match executeOperation sv st.idMap op with
    | .ok res =>
      execSeq sv rest
        { st with results := st.results ++ [res], idMap := updateIdMap st.idMap op res }
    | .error m =>
      ({ st with errors := st.errors ++ [⟨m, "execution", some op⟩] }, some m)

/-- Recording of one settled outcome: a fulfilled result extends the results
and the id map, a rejection is recorded as an error. -/
def settleStep (acc : ExecSt) (pr : RecordOperation × Except String OperationResult) : ExecSt :=
  match pr.2 with
  | .ok res =>
    { acc with results := acc.results ++ [res], idMap := updateIdMap acc.idMap pr.1 res }
  | .error m =>
    { acc with errors := acc.errors ++ [⟨m, "execution", some pr.1⟩] }

/-- Parallel branch of a batch: all operations are dispatched against the
batch-entry idMap (`Promise.allSettled`), then every settled outcome is
recorded; nothing is rethrown. -/
def execPar (sv : SvcOracle) (st : ExecSt) (ops : List RecordOperation) : ExecSt :=
  let settled := ops.map (fun op => (op, executeOperation sv st.idMap op))
  settled.foldl settleStep st

/-- One batch of `executePlan` (the break-point loops of the source only log,
and the deferred break-point update is an unimplemented TODO, so neither
touches the state): parallel when flagged and holding more than one
operation, else sequential; the second component is the rethrown message of
a sequential failure. -/
def stepBatch (sv : SvcOracle) (st : ExecSt) (b : ExecutionBatch) : ExecSt × Option String :=
  if b.canParallelize && decide (1 < b.operations.length) then (execPar sv st b.operations, none)
  else execSeq sv b.operations st

/-- Batch loop of `executePlan`; a rethrown sequential failure aborts the
remaining batches. -/
def execBatches (sv : SvcOracle) : List ExecutionBatch → ExecSt → ExecSt × Option String
  | [], st => (st, none)
  | b :: rest, st =>
    match stepBatch sv st b with
    | (st', none) => execBatches sv rest st'
    | (st', some m) => (st', some m)

/-- Overall result of `executePlan`. -/
structure PlanResult where
  success : Bool
  operations : List OperationResult
  errors : List ExecutionError
deriving DecidableEq

/-- The source's `executePlan`: run the batches; an escaped throw lands in
the outer catch, which appends one more error and reports failure; otherwise
success is the absence of collected errors. -/
def executePlan (sv : SvcOracle) (batches : List ExecutionBatch) : PlanResult :=
  match execBatches sv batches ⟨[], [], []⟩ with
  | (st, none) => ⟨st.errors.isEmpty, st.results, st.errors⟩
  | (st, some m) => ⟨false, st.results, st.errors ++ [⟨m, "execution", none⟩]⟩

/-- The analysis-plus-execution pipeline of `executeWithDependencies`
downstream of the metadata warmup: build the graph, detect cycles, generate
the plan, execute it. -/
def executeWithDependencies (rels : String → List RelRow) (sv : SvcOracle)
    (operations : List RecordOperation) : List ExecutionBatch × PlanResult :=
  let graph := buildDependencyGraph operations
  let circular := detectCircularDependencies graph
  let plan := generateExecutionPlan rels graph circular
  (plan, executePlan sv plan)

/-
Concrete fixtures used by the theorems below.
-/

/-- A deterministic service oracle: every call succeeds with a real id
derived from the object name. -/
def svFix : SvcOracle :=
  ⟨fun so _ => ⟨true, some ("id-" ++ so), []⟩,
   fun so _ _ => ⟨true, some ("uid-" ++ so), []⟩,
   fun so _ => ⟨true, some ("did-" ++ so), []⟩⟩

/-- Relationship metadata for the cyclic fixture: the Account side of the
cycle is a non-required (nullable) lookup, the Contact side is required. -/
def relsFix : String → List RelRow := fun so =>
  if so = "Account" then [⟨"Primary_Contact__c", "Contact", false⟩]
  else if so = "Contact" then [⟨"AccountId", "Account", true⟩]
  else []

/-- Cyclic two-operation batch: the Contact references the Account's
temporary id and vice versa. -/
def cyclicOps : List RecordOperation :=
  [⟨.create, "Contact", [("LastName", .jstr "Doe"), ("AccountId", .jstr "@b")], some "@a", none⟩,
   ⟨.create, "Account", [("Name", .jstr "Acme"), ("Primary_Contact__c", .jstr "@a")], some "@b", none⟩]

/-- Metadata store fixture with a createable Account whose Name is required
(no default) and whose Industry is a picklist. -/
def accountDbFix : MetadataDatabase :=
  ⟨fun so => if so = "Account" then some ⟨true, true, some 0⟩ else none,
   fun so =>
     if so = "Account" then
       [⟨"Name", "Account Name", "string", some 255, none, none, true, none, none⟩,
        ⟨"Industry", "Industry", "picklist", none, none, none, false, none,
         some ["Technology", "Finance"]⟩]
     else [],
   fun _ => [],
   fun _ => []⟩

/-- Metadata store fixture for the staleness claims: object "A" synced at
time 1000. -/
def cacheDbFix : MetadataDatabase :=
  ⟨fun so => if so = "A" then some ⟨true, true, some 1000⟩ else none,
   fun _ => [], fun _ => [], fun _ => []⟩

/-- Search config with caller-supplied weights that push the composite score
above 1. -/
def c7cfg : SearchConfig :=
  ⟨"x", "Account", none, none, some ⟨some 2, some 0, some 0, some 0⟩⟩

/-- A single-strategy SOSL record whose field value equals the search term. -/
def c7rec : SRec :=
  ⟨"1", [("x", "aa")], ["exact"]⟩

/-- Default-weight search config for the scoring witness. -/
def c7cfgW : SearchConfig :=
  ⟨"x", "Account", none, none, none⟩

/-- A two-strategy SOSL record whose field value equals the search term. -/
def c7recW : SRec :=
  ⟨"1", [("x", "ab")], ["exact", "prefix"]⟩

/-
Theorems.
-/

set_option maxRecDepth 8192

/-- C10: for every pair of strings with at least one empty — including two
equal empty strings — the Levenshtein, Jaro-Winkler and Trigram similarities
are 0 (not 1), and the Soundex matcher does not match. -/
theorem C10_empty_string_similarities (s1 s2 : String) (h : s1 = "" ∨ s2 = "") :
    LevenshteinMatcher.similarity s1 s2 = 0 ∧
    JaroWinklerMatcher.similarity s1 s2 = 0 ∧
    TrigramMatcher.similarity s1 s2 = 0 ∧
    SoundexMatcher.matches s1 s2 = false := by
  refine ⟨?_, ?_, ?_, ?_⟩
  · unfold LevenshteinMatcher.similarity
    rw [if_pos h]
  · unfold JaroWinklerMatcher.similarity
    rw [if_pos h]
  · unfold TrigramMatcher.similarity
    rw [if_pos h]
  · unfold SoundexMatcher.matches
    rw [if_pos h]

/-- Witness for C10 at the pair of two empty strings. -/
theorem C10_empty_string_similarities_witness :
    LevenshteinMatcher.similarity "" "" = 0 ∧
    JaroWinklerMatcher.similarity "" "" = 0 ∧
    TrigramMatcher.similarity "" "" = 0 ∧
    SoundexMatcher.matches "" "" = false :=
  C10_empty_string_similarities "" "" (Or.inl rfl)

/-- C4: an entity is stale exactly when it is absent, never synced, or its
age strictly exceeds the TTL; an entity synced at `T` is stale at
`T + ttl + 1` and fresh at `T + ttl - 1`; and `ensureMetadata` issues one
sync for exactly the stale subset of the requested entities, and no sync at
all when that subset is empty. -/
theorem C4_staleness_and_ensure :
    (∀ (now : Int) (db : MetadataDatabase) (name : String) (ttl : Int),
       isMetadataStale now db name ttl = true ↔
         (db.getSObject name = none ∨
          ∃ so, db.getSObject name = some so ∧
            (so.synced_at = none ∨ ∃ ts, so.synced_at = some ts ∧ ttl < now - ts))) ∧
    (∀ (T ttl : Int) (db : MetadataDatabase) (name : String) (so : SObjRow),
       db.getSObject name = some so → so.synced_at = some T →
       isMetadataStale (T + ttl + 1) db name ttl = true ∧
       isMetadataStale (T + ttl - 1) db name ttl = false) ∧
    (∀ (now : Int) (db : MetadataDatabase) (ttl : Int) (objects : List String),
       ensureMetadata now db ttl objects =
         if findMissingOrStale now db ttl objects = [] then none
         else some (findMissingOrStale now db ttl objects)) := by
  refine ⟨?_, ?_, ?_⟩
  · intro now db name ttl
    unfold isMetadataStale
    cases hso : db.getSObject name with
    | none => simp
    | some so =>
      cases hts : so.synced_at with
      | none => simp [hts]
      | some ts => simp [hts]
  · intro T ttl db name so hso hts
    constructor
    · unfold isMetadataStale
      simp only [hso, hts, decide_eq_true_eq]
      omega
    · unfold isMetadataStale
      simp only [hso, hts, decide_eq_false_iff_not]
      omega
  · intro now db ttl objects
    unfold ensureMetadata
    cases objects with
    | nil => simp [findMissingOrStale]
    | cons a as =>
      have hne : ¬((a :: as).length = 0) := by simp
      rw [if_neg hne]
      by_cases hm : findMissingOrStale now db ttl (a :: as) = []
      · rw [if_pos hm]
        rw [hm]
        simp
      · rw [if_neg hm]
        have : 0 < (findMissingOrStale now db ttl (a :: as)).length :=
          List.length_pos.mpr hm
        rw [if_pos this]

/-- Witness for C4 on a concrete store: object "A" synced at 1000 with
TTL 500 is stale at 1501 and fresh at 1499. -/
theorem C4_staleness_and_ensure_witness :
    isMetadataStale (1000 + 500 + 1) cacheDbFix "A" 500 = true ∧
    isMetadataStale (1000 + 500 - 1) cacheDbFix "A" 500 = false :=
  C4_staleness_and_ensure.2.1 1000 500 cacheDbFix "A" ⟨true, true, some 1000⟩ (by decide) rfl

/-- C1 (evaluation at the failing input): on a two-operation cycle broken at
the Account's non-required `Primary_Contact__c` field, the plan does mark
`op_1` as a create-then-update break point, but execution neither creates the
break-point record with the cyclic field omitted/null nor issues any
follow-up update: the create is attempted with the unresolved `@a` reference
still in the payload, throws `Cannot resolve reference @a in
Primary_Contact__c`, and the run ends with no executed operation at all
(the deferred update step of the source is a TODO that never runs). -/
theorem C1_break_point_not_executed :
    (executeWithDependencies relsFix svFix cyclicOps).1.map
        (fun b => (b.nodeIds, b.breakPoints.map (fun bp => (bp.nodeId, bp.field, bp.strategy)))) =
      [(["op_1"], [("op_1", "Primary_Contact__c", "create-then-update")]),
       (["op_0"], [])] ∧
    (executeWithDependencies relsFix svFix cyclicOps).2.success = false ∧
    (executeWithDependencies relsFix svFix cyclicOps).2.operations = [] ∧
    (executeWithDependencies relsFix svFix cyclicOps).2.errors.map (fun e => e.message) =
      ["Cannot resolve reference @a in Primary_Contact__c",
       "Cannot resolve reference @a in Primary_Contact__c"] := by
  decide

/-
Validator invariant lemmas: every error push sets `valid := false`, warnings
and suggestions never touch `valid` or `errors`, and every step only appends
to the error list.
-/

/-- Pushing an error makes both sides of the invariant false. -/
theorem pushError_inv (r : ValidationResult) (i : ValidationIssue) :
    ((pushError r i).valid = true ↔ (pushError r i).errors = []) := by
  simp [pushError]

/-- A fold preserves the valid-iff-no-errors invariant if its step does. -/
theorem inv_foldl {β : Type} (f : ValidationResult → β → ValidationResult)
    (hf : ∀ r b, (r.valid = true ↔ r.errors = []) →
      ((f r b).valid = true ↔ (f r b).errors = []))
    (l : List β) (r : ValidationResult) (h : r.valid = true ↔ r.errors = []) :
    ((l.foldl f r).valid = true ↔ (l.foldl f r).errors = []) := by
  induction l generalizing r with
  | nil => exact h
  | cons b bs ih => exact ih _ (hf _ _ h)

/-- A fold only appends to the error list if its step does. -/
theorem errors_foldl {β : Type} (f : ValidationResult → β → ValidationResult)
    (hf : ∀ r b, ∃ t, (f r b).errors = r.errors ++ t)
    (l : List β) (r : ValidationResult) :
    ∃ t, (l.foldl f r).errors = r.errors ++ t := by
  induction l generalizing r with
  | nil => exact ⟨[], (List.append_nil _).symm⟩
  | cons b bs ih =>
    obtain ⟨t1, h1⟩ := hf r b
    obtain ⟨t2, h2⟩ := ih (f r b)
    exact ⟨t1 ++ t2, by rw [List.foldl_cons, h2, h1, List.append_assoc]⟩

/-- `validateFieldType` preserves the invariant. -/
theorem inv_validateFieldType (f : FieldRow) (v : JValue) (r : ValidationResult)
    (h : r.valid = true ↔ r.errors = []) :
    ((validateFieldType f v r).valid = true ↔ (validateFieldType f v r).errors = []) := by
  unfold validateFieldType
  try dsimp only
  split
  · exact pushError_inv _ _
  · exact h

/-- `validateFieldType` only appends errors. -/
theorem errors_validateFieldType (f : FieldRow) (v : JValue) (r : ValidationResult) :
    ∃ t, (validateFieldType f v r).errors = r.errors ++ t := by
  unfold validateFieldType
  try dsimp only
  split
  · exact ⟨_, rfl⟩
  · exact ⟨[], (List.append_nil _).symm⟩

/-- `validatePicklist` preserves the invariant. -/
theorem inv_validatePicklist (f : FieldRow) (v : JValue) (r : ValidationResult)
    (h : r.valid = true ↔ r.errors = []) :
    ((validatePicklist f v r).valid = true ↔ (validatePicklist f v r).errors = []) := by
  unfold validatePicklist
  try dsimp only
  split
  · exact pushError_inv _ _
  · exact h

/-- `validatePicklist` only appends errors. -/
theorem errors_validatePicklist (f : FieldRow) (v : JValue) (r : ValidationResult) :
    ∃ t, (validatePicklist f v r).errors = r.errors ++ t := by
  unfold validatePicklist
  try dsimp only
  split
  · exact ⟨_, rfl⟩
  · exact ⟨[], (List.append_nil _).symm⟩

/-- `lengthCheck` preserves the invariant. -/
theorem inv_lengthCheck (f : FieldRow) (v : JValue) (r : ValidationResult)
    (h : r.valid = true ↔ r.errors = []) :
    ((lengthCheck f v r).valid = true ↔ (lengthCheck f v r).errors = []) := by
  unfold lengthCheck
  try dsimp only
  split
  · split
    · split
      · exact pushError_inv _ _
      · exact h
    · exact h
  · exact h

/-- `lengthCheck` only appends errors. -/
theorem errors_lengthCheck (f : FieldRow) (v : JValue) (r : ValidationResult) :
    ∃ t, (lengthCheck f v r).errors = r.errors ++ t := by
  unfold lengthCheck
  try dsimp only
  split
  · split
    · split
      · exact ⟨_, rfl⟩
      · exact ⟨[], (List.append_nil _).symm⟩
    · exact ⟨[], (List.append_nil _).symm⟩
  · exact ⟨[], (List.append_nil _).symm⟩

/-- `precisionWarn` touches neither `valid` nor `errors`. -/
theorem precisionWarn_keeps (f : FieldRow) (q : ℚ) (r : ValidationResult) :
    (precisionWarn f q r).valid = r.valid ∧ (precisionWarn f q r).errors = r.errors := by
  unfold precisionWarn
  try dsimp only
  split
  · split
    · exact ⟨rfl, rfl⟩
    · exact ⟨rfl, rfl⟩
  · exact ⟨rfl, rfl⟩

/-- `scaleWarn` touches neither `valid` nor `errors`. -/
theorem scaleWarn_keeps (f : FieldRow) (q : ℚ) (r : ValidationResult) :
    (scaleWarn f q r).valid = r.valid ∧ (scaleWarn f q r).errors = r.errors := by
  unfold scaleWarn
  try dsimp only
  split
  · split
    · exact ⟨rfl, rfl⟩
    · exact ⟨rfl, rfl⟩
  · exact ⟨rfl, rfl⟩

/-- `validateNumber` touches neither `valid` nor `errors`. -/
theorem validateNumber_keeps (f : FieldRow) (q : ℚ) (r : ValidationResult) :
    (validateNumber f q r).valid = r.valid ∧ (validateNumber f q r).errors = r.errors := by
  unfold validateNumber
  obtain ⟨h1, h2⟩ := scaleWarn_keeps f q (precisionWarn f q r)
  obtain ⟨h3, h4⟩ := precisionWarn_keeps f q r
  exact ⟨h1.trans h3, h2.trans h4⟩

/-- `numberCheck` touches neither `valid` nor `errors`. -/
theorem numberCheck_keeps (f : FieldRow) (v : JValue) (r : ValidationResult) :
    (numberCheck f v r).valid = r.valid ∧ (numberCheck f v r).errors = r.errors := by
  unfold numberCheck
  try dsimp only
  split
  · split
    · exact validateNumber_keeps _ _ _
    · exact ⟨rfl, rfl⟩
  · exact ⟨rfl, rfl⟩

/-- The picklist dispatch of `validateFieldEntry` preserves the invariant. -/
theorem inv_picklistStep (field : FieldRow) (v : JValue) (r : ValidationResult)
    (h : r.valid = true ↔ r.errors = []) :
    ((if field.type = "picklist" ∧ field.picklist_values.isSome then
        validatePicklist field v r else r).valid = true ↔
     (if field.type = "picklist" ∧ field.picklist_values.isSome then
        validatePicklist field v r else r).errors = []) := by
  split
  · exact inv_validatePicklist _ _ _ h
  · exact h

/-- The picklist dispatch of `validateFieldEntry` only appends errors. -/
theorem errors_picklistStep (field : FieldRow) (v : JValue) (r : ValidationResult) :
    ∃ t, (if field.type = "picklist" ∧ field.picklist_values.isSome then
        validatePicklist field v r else r).errors = r.errors ++ t := by
  split
  · exact errors_validatePicklist _ _ _
  · exact ⟨[], (List.append_nil _).symm⟩

/-- The per-entry field check preserves the invariant. -/
theorem inv_validateFieldEntry (allFields : List FieldRow) (kv : String × JValue)
    (r : ValidationResult) (h : r.valid = true ↔ r.errors = []) :
    ((validateFieldEntry allFields kv r).valid = true ↔
     (validateFieldEntry allFields kv r).errors = []) := by
  unfold validateFieldEntry
  try dsimp only
  split
  · simpa [pushWarning] using h
  · rename_i field hfind
    split
    · exact h
    · have h1 := inv_validateFieldType field kv.2 r h
      have h2 := inv_lengthCheck field kv.2 _ h1
      have h4 := inv_picklistStep field kv.2 _ h2
      obtain ⟨hv, he⟩ := numberCheck_keeps field kv.2
        (if field.type = "picklist" ∧ field.picklist_values.isSome then
            validatePicklist field kv.2 (lengthCheck field kv.2 (validateFieldType field kv.2 r))
          else lengthCheck field kv.2 (validateFieldType field kv.2 r))
      rw [hv, he]
      exact h4

/-- The per-entry field check only appends errors. -/
theorem errors_validateFieldEntry (allFields : List FieldRow) (kv : String × JValue)
    (r : ValidationResult) :
    ∃ t, (validateFieldEntry allFields kv r).errors = r.errors ++ t := by
  unfold validateFieldEntry
  try dsimp only
  split
  · exact ⟨[], by simp [pushWarning]⟩
  · rename_i field hfind
    split
    · exact ⟨[], (List.append_nil _).symm⟩
    · obtain ⟨t1, h1⟩ := errors_validateFieldType field kv.2 r
      obtain ⟨t2, h2⟩ := errors_lengthCheck field kv.2 (validateFieldType field kv.2 r)
      obtain ⟨t3, h3⟩ := errors_picklistStep field kv.2
        (lengthCheck field kv.2 (validateFieldType field kv.2 r))
      obtain ⟨hv, he⟩ := numberCheck_keeps field kv.2
        (if field.type = "picklist" ∧ field.picklist_values.isSome then
            validatePicklist field kv.2 (lengthCheck field kv.2 (validateFieldType field kv.2 r))
          else lengthCheck field kv.2 (validateFieldType field kv.2 r))
      refine ⟨t1 ++ (t2 ++ t3), ?_⟩
      rw [he, h3, h2, h1]
      simp [List.append_assoc]

/-- The required-field loop body preserves the invariant. -/
theorem inv_requiredFieldStep (data : List (String × JValue)) (r : ValidationResult)
    (f : FieldRow) (h : r.valid = true ↔ r.errors = []) :
    ((requiredFieldStep data r f).valid = true ↔ (requiredFieldStep data r f).errors = []) := by
  unfold requiredFieldStep
  try dsimp only
  split
  · exact pushError_inv _ _
  · exact h

/-- The required-field loop body only appends errors. -/
theorem errors_requiredFieldStep (data : List (String × JValue)) (r : ValidationResult)
    (f : FieldRow) :
    ∃ t, (requiredFieldStep data r f).errors = r.errors ++ t := by
  unfold requiredFieldStep
  try dsimp only
  split
  · exact ⟨_, rfl⟩
  · exact ⟨[], (List.append_nil _).symm⟩

/-- The relationship loop body preserves the invariant. -/
theorem inv_checkRelEntry (data : List (String × JValue)) (rel : RelRow)
    (r : ValidationResult) (h : r.valid = true ↔ r.errors = []) :
    ((checkRelEntry data rel r).valid = true ↔ (checkRelEntry data rel r).errors = []) := by
  unfold checkRelEntry
  try dsimp only
  split
  · exact h
  · split
    · split
      · simpa [pushSuggestion] using pushError_inv r _
      · simpa [pushSuggestion] using h
    · split
      · exact pushError_inv r _
      · exact h

/-- The relationship loop body only appends errors. -/
theorem errors_checkRelEntry (data : List (String × JValue)) (rel : RelRow)
    (r : ValidationResult) :
    ∃ t, (checkRelEntry data rel r).errors = r.errors ++ t := by
  unfold checkRelEntry
  try dsimp only
  split
  · exact ⟨[], (List.append_nil _).symm⟩
  · split
    · split
      · exact ⟨_, rfl⟩
      · exact ⟨[], (List.append_nil _).symm⟩
    · split
      · exact ⟨_, rfl⟩
      · exact ⟨[], (List.append_nil _).symm⟩

/-- `checkValidationRules` touches neither `valid` nor `errors`. -/
theorem checkValidationRules_keeps (db : MetadataDatabase) (name : String)
    (r : ValidationResult) :
    (checkValidationRules db name r).valid = r.valid ∧
    (checkValidationRules db name r).errors = r.errors := by
  unfold checkValidationRules
  try dsimp only
  split
  · exact ⟨rfl, rfl⟩
  · exact ⟨rfl, rfl⟩

/-- `validateRequiredFields` preserves the invariant. -/
theorem inv_validateRequiredFields (rf : List FieldRow) (data : List (String × JValue))
    (r : ValidationResult) (h : r.valid = true ↔ r.errors = []) :
    ((validateRequiredFields rf data r).valid = true ↔
     (validateRequiredFields rf data r).errors = []) := by
  unfold validateRequiredFields
  exact inv_foldl (requiredFieldStep data) (inv_requiredFieldStep data) _ r h

/-- `validateFields` preserves the invariant. -/
theorem inv_validateFields (af : List FieldRow) (data : List (String × JValue))
    (r : ValidationResult) (h : r.valid = true ↔ r.errors = []) :
    ((validateFields af data r).valid = true ↔ (validateFields af data r).errors = []) := by
  unfold validateFields
  exact inv_foldl _ (fun r kv => inv_validateFieldEntry af kv r) data r h

/-- `checkValidationRules` preserves the invariant. -/
theorem inv_checkValidationRules (db : MetadataDatabase) (name : String)
    (r : ValidationResult) (h : r.valid = true ↔ r.errors = []) :
    ((checkValidationRules db name r).valid = true ↔
     (checkValidationRules db name r).errors = []) := by
  obtain ⟨hv, he⟩ := checkValidationRules_keeps db name r
  rw [hv, he]
  exact h

/-- `checkRelationships` preserves the invariant. -/
theorem inv_checkRelationships (db : MetadataDatabase) (name : String)
    (data : List (String × JValue)) (r : ValidationResult)
    (h : r.valid = true ↔ r.errors = []) :
    ((checkRelationships db name data r).valid = true ↔
     (checkRelationships db name data r).errors = []) := by
  unfold checkRelationships
  exact inv_foldl _ (fun r rel => inv_checkRelEntry data rel r) _ r h

/-- `validateFields` only appends errors. -/
theorem errors_validateFields (af : List FieldRow) (data : List (String × JValue))
    (r : ValidationResult) :
    ∃ t, (validateFields af data r).errors = r.errors ++ t := by
  unfold validateFields
  exact errors_foldl _ (fun r kv => errors_validateFieldEntry af kv r) data r

/-- `checkRelationships` only appends errors. -/
theorem errors_checkRelationships (db : MetadataDatabase) (name : String)
    (data : List (String × JValue)) (r : ValidationResult) :
    ∃ t, (checkRelationships db name data r).errors = r.errors ++ t := by
  unfold checkRelationships
  exact errors_foldl _ (fun r rel => errors_checkRelEntry data rel r) _ r

/-- `validateCreate` satisfies the valid-iff-no-errors invariant. -/
theorem validateCreate_inv (db : MetadataDatabase) (name : String)
    (data : List (String × JValue)) :
    ((PreflightValidator.validateCreate db name data).valid = true ↔
     (PreflightValidator.validateCreate db name data).errors = []) := by
  unfold PreflightValidator.validateCreate
  try dsimp only
  split
  · exact pushError_inv _ _
  · split
    · exact pushError_inv _ _
    · have h0 : ((⟨true, [], [], []⟩ : ValidationResult).valid = true ↔
          (⟨true, [], [], []⟩ : ValidationResult).errors = []) := by simp
      exact inv_checkRelationships db name data _
        (inv_checkValidationRules db name _
          (inv_validateFields _ data _
            (inv_validateRequiredFields _ data _ h0)))

/-- `validateUpdate` satisfies the valid-iff-no-errors invariant. -/
theorem validateUpdate_inv (db : MetadataDatabase) (name rid : String)
    (data : List (String × JValue)) :
    ((PreflightValidator.validateUpdate db name rid data).valid = true ↔
     (PreflightValidator.validateUpdate db name rid data).errors = []) := by
  unfold PreflightValidator.validateUpdate
  try dsimp only
  split
  · exact pushError_inv _ _
  · split
    · exact pushError_inv _ _
    · have h0 : ((⟨true, [], [], []⟩ : ValidationResult).valid = true ↔
          (⟨true, [], [], []⟩ : ValidationResult).errors = []) := by simp
      exact inv_checkRelationships db name data _
        (inv_checkValidationRules db name _
          (inv_validateFields _ data _ h0))

/-- C5: for every input, `validateCreate` and `validateUpdate` report
`valid = true` exactly when the error list is empty (warnings and
suggestions never affect `valid`). -/
theorem C5_valid_iff_errors_empty :
    (∀ (db : MetadataDatabase) (name : String) (data : List (String × JValue)),
      ((PreflightValidator.validateCreate db name data).valid = true ↔
       (PreflightValidator.validateCreate db name data).errors = [])) ∧
    (∀ (db : MetadataDatabase) (name rid : String) (data : List (String × JValue)),
      ((PreflightValidator.validateUpdate db name rid data).valid = true ↔
       (PreflightValidator.validateUpdate db name rid data).errors = [])) :=
  ⟨validateCreate_inv, validateUpdate_inv⟩

/-- A user-required field missing from the payload contributes its
`REQUIRED_FIELD` entry to the required-field fold's error list. -/
theorem requiredFold_mem (data : List (String × JValue)) (l : List FieldRow) :
    ∀ (r : ValidationResult) (f : FieldRow), f ∈ l →
      missingInPayload data f.name = true →
      requiredFieldIssue f ∈ (l.foldl (requiredFieldStep data) r).errors := by
  induction l with
  | nil =>
    intro r f hf _
    cases hf
  | cons b bs ih =>
    intro r f hf hmiss
    rw [List.foldl_cons]
    rcases List.mem_cons.mp hf with heq | htl
    · subst heq
      obtain ⟨t, ht⟩ := errors_foldl (requiredFieldStep data) (errors_requiredFieldStep data)
        bs (requiredFieldStep data r f)
      rw [ht]
      apply List.mem_append_left
      unfold requiredFieldStep
      rw [if_pos hmiss]
      simp [pushError]
    · exact ih _ f htl hmiss

/-- C6: a field marked required in the cached metadata, outside the
exclusion set (system fields, auto-defaulted booleans, OwnerId) and without
a non-empty default, whose payload value is absent, null or the empty
string, makes `validateCreate` return `valid = false` with a
`REQUIRED_FIELD` error naming the field and carrying a suggestion;
in particular `validateCreate "Account" (Industry = "Technology")` with
Name required errors on Name. -/
theorem C6_required_field_error :
    (∀ (db : MetadataDatabase) (name : String) (data : List (String × JValue))
       (so : SObjRow) (f : FieldRow),
       db.getSObject name = some so → so.is_createable = true →
       f ∈ db.getFields name → f.is_required = true →
       excludedFields.contains f.name = false →
       (f.default_value = none ∨ f.default_value = some "") →
       missingInPayload data f.name = true →
       (PreflightValidator.validateCreate db name data).valid = false ∧
       ∃ e ∈ (PreflightValidator.validateCreate db name data).errors,
         e.field = f.name ∧ e.type = "REQUIRED_FIELD" ∧ e.suggestion.isSome = true) ∧
    ((PreflightValidator.validateCreate accountDbFix "Account"
        [("Industry", JValue.jstr "Technology")]).valid = false ∧
     ∃ e ∈ (PreflightValidator.validateCreate accountDbFix "Account"
        [("Industry", JValue.jstr "Technology")]).errors, e.field = "Name") := by
  constructor
  · intro db name data so f hso hcr hmem hreq hexc hdef hmiss
    have hku : keepUserRequired f = true := by
      unfold keepUserRequired
      rcases hdef with h | h <;> rw [h, hexc] <;> rfl
    have hmemr : f ∈ (getRequiredFields db name).filter keepUserRequired :=
      List.mem_filter.mpr ⟨List.mem_filter.mpr ⟨hmem, by simp [hreq]⟩, hku⟩
    have hmem1 : requiredFieldIssue f ∈
        (validateRequiredFields (getRequiredFields db name) data ⟨true, [], [], []⟩).errors := by
      unfold validateRequiredFields
      exact requiredFold_mem data _ _ f hmemr hmiss
    obtain ⟨t2, h2⟩ := errors_validateFields (db.getFields name) data
      (validateRequiredFields (getRequiredFields db name) data ⟨true, [], [], []⟩)
    obtain ⟨hv3, h3⟩ := checkValidationRules_keeps db name
      (validateFields (db.getFields name) data
        (validateRequiredFields (getRequiredFields db name) data ⟨true, [], [], []⟩))
    obtain ⟨t4, h4⟩ := errors_checkRelationships db name data
      (checkValidationRules db name
        (validateFields (db.getFields name) data
          (validateRequiredFields (getRequiredFields db name) data ⟨true, [], [], []⟩)))
    have hfinal : requiredFieldIssue f ∈ (PreflightValidator.validateCreate db name data).errors := by
      unfold PreflightValidator.validateCreate
      try dsimp only
      simp only [hso]
      rw [if_neg (by simp [hcr])]
      rw [h4, h3, h2]
      exact List.mem_append_left _ (List.mem_append_left _ hmem1)
    have hiff := validateCreate_inv db name data
    constructor
    · have hne : (PreflightValidator.validateCreate db name data).errors ≠ [] := by
        intro hnil
        rw [hnil] at hfinal
        cases hfinal
      cases hvv : (PreflightValidator.validateCreate db name data).valid with
      | false => rfl
      | true => exact absurd (hiff.mp hvv) hne
    · exact ⟨requiredFieldIssue f, hfinal, rfl, rfl, rfl⟩
  · exact ⟨by decide, by decide⟩

/-- Witness for C6 at the concrete Account store and payload. -/
theorem C6_required_field_error_witness :
    (PreflightValidator.validateCreate accountDbFix "Account"
       [("Industry", JValue.jstr "Technology")]).valid = false ∧
    ∃ e ∈ (PreflightValidator.validateCreate accountDbFix "Account"
       [("Industry", JValue.jstr "Technology")]).errors,
      e.field = "Name" ∧ e.type = "REQUIRED_FIELD" ∧ e.suggestion.isSome = true :=
  C6_required_field_error.1 accountDbFix "Account" [("Industry", JValue.jstr "Technology")]
    ⟨true, true, some 0⟩
    ⟨"Name", "Account Name", "string", some 255, none, none, true, none, none⟩
    (by decide) rfl (by decide) rfl (by decide) (Or.inl rfl) (by decide)

/-- Membership in a stable insertion. -/
theorem mem_insertLe {α : Type} (le : α → α → Bool) (a x : α) (l : List α) :
    x ∈ insertLe le a l ↔ x = a ∨ x ∈ l := by
  induction l with
  | nil => simp [insertLe]
  | cons y ys ih =>
    unfold insertLe
    split
    · simp [List.mem_cons]
    · simp only [List.mem_cons, ih]
      tauto

/-- Membership is invariant under the stable sort. -/
theorem mem_jsSortBy {α : Type} (le : α → α → Bool) (x : α) (l : List α) :
    x ∈ jsSortBy le l ↔ x ∈ l := by
  induction l with
  | nil => simp [jsSortBy]
  | cons y ys ih =>
    unfold jsSortBy
    rw [mem_insertLe]
    simp [List.mem_cons, ih]

/-- Every result of `findMatches` is the scoring of one of the input
records against the normalized search term. -/
theorem mem_findMatches_src (records : List SRec) (searchTerm : String)
    (cfg : SearchConfig) (r : MatchResult)
    (hr : r ∈ SmartMatcher.findMatches records searchTerm cfg) :
    ∃ rec ∈ records,
      r = SmartMatcher.scoreOne (SmartMatcher.normalizeForField searchTerm cfg.field)
            cfg.field cfg rec := by
  unfold SmartMatcher.findMatches at hr
  dsimp only at hr
  have hr2 : r ∈ (jsSortBy (fun a b => decide (b.score ≤ a.score))
      (SmartMatcher.scoreResults records
        (SmartMatcher.normalizeForField searchTerm cfg.field) cfg.field cfg)).take
      (cfg.limit.getD 10) := by
    split at hr
    · exact List.mem_of_mem_filter hr
    · exact hr
  have hr3 := List.take_subset _ _ hr2
  have hr4 := (mem_jsSortBy _ _ _).mp hr3
  unfold SmartMatcher.scoreResults at hr4
  obtain ⟨rec, hrec, heq⟩ := List.mem_map.mp hr4
  exact ⟨rec, hrec, heq.symm⟩

/-- Tier assignment of the nested confidence-threshold conditional. -/
theorem tier_spec (b : ℚ) :
    ((if (0.95 : ℚ) ≤ b then MatchConfidence.HIGH
      else if (0.75 : ℚ) ≤ b then MatchConfidence.MEDIUM
      else MatchConfidence.LOW) = MatchConfidence.HIGH ↔ (0.95 : ℚ) ≤ b) ∧
    ((if (0.95 : ℚ) ≤ b then MatchConfidence.HIGH
      else if (0.75 : ℚ) ≤ b then MatchConfidence.MEDIUM
      else MatchConfidence.LOW) = MatchConfidence.MEDIUM ↔
        ((0.75 : ℚ) ≤ b ∧ b < 0.95)) ∧
    ((if (0.95 : ℚ) ≤ b then MatchConfidence.HIGH
      else if (0.75 : ℚ) ≤ b then MatchConfidence.MEDIUM
      else MatchConfidence.LOW) = MatchConfidence.LOW ↔ b < 0.75) := by
  split_ifs with h1 h2
  · refine ⟨iff_of_true rfl h1, iff_of_false (by simp) ?_, iff_of_false (by simp) ?_⟩
    · intro hc
      linarith [hc.2]
    · intro hc
      linarith
  · refine ⟨iff_of_false (by simp) h1, iff_of_true rfl ⟨h2, by linarith [lt_of_not_le h1]⟩,
      iff_of_false (by simp) ?_⟩
    intro hc
    linarith
  · refine ⟨iff_of_false (by simp) h1, iff_of_false (by simp) ?_,
      iff_of_true rfl (by linarith [lt_of_not_le h2])⟩
    intro hc
    exact h2 hc.1

/-- Self-similarity of a nonempty string under the edit-distance matcher. -/
theorem lev_self (s : String) (hs : ¬ s = "") : LevenshteinMatcher.similarity s s = 1 := by
  unfold LevenshteinMatcher.similarity
  rw [if_neg (by simp [hs]), if_pos rfl]

/-- Self-similarity of a nonempty string under the Jaro-Winkler matcher. -/
theorem jw_self (s : String) (hs : ¬ s = "") : JaroWinklerMatcher.similarity s s = 1 := by
  unfold JaroWinklerMatcher.similarity
  rw [if_neg (by simp [hs]), if_pos rfl]

/-- Self-similarity of a nonempty string under the trigram matcher. -/
theorem tri_self (s : String) (hs : ¬ s = "") : TrigramMatcher.similarity s s = 1 := by
  unfold TrigramMatcher.similarity
  rw [if_neg (by simp [hs]), if_pos rfl]

/-- Self-similarity of a nonempty string under the Soundex matcher. -/
theorem snd_self (s : String) (hs : ¬ s = "") : SoundexMatcher.similarity s s = 1 := by
  unfold SoundexMatcher.similarity SoundexMatcher.matches
  simp [hs]

/-- Composite self-similarity: the blended score of a nonempty string with
itself is the sum of the merged weights. -/
theorem composite_self_score (s : String) (hs : ¬ s = "") (w : Option PartialSimWeights) :
    (CompositeSimilarityMatcher.similarity s s w).score =
      (mergeWeights w).levenshtein + (mergeWeights w).jaroWinkler +
      (mergeWeights w).trigram + (mergeWeights w).soundex := by
  unfold CompositeSimilarityMatcher.similarity
  dsimp only
  rw [lev_self s hs, jw_self s hs, tri_self s hs, snd_self s hs]
  ring

/-- `findMatches` on one record with default limit and no confidence floor
returns exactly the scoring of that record. -/
theorem findMatches_singleton (rec : SRec) (t : String) (cfg : SearchConfig)
    (hlim : cfg.limit = none) (hmc : cfg.minConfidence = none) :
    SmartMatcher.findMatches [rec] t cfg =
      [SmartMatcher.scoreOne (SmartMatcher.normalizeForField t cfg.field) cfg.field cfg rec] := by
  unfold SmartMatcher.findMatches SmartMatcher.scoreResults
  simp [hlim, hmc, jsSortBy, insertLe]

/-- With at most one matching strategy the final score is the raw composite
similarity, uncapped. -/
theorem scoreOne_score_single (nInput field : String) (cfg : SearchConfig) (rec : SRec)
    (hk : rec.matchedBy.length ≤ 1) :
    (SmartMatcher.scoreOne nInput field cfg rec).score =
      (CompositeSimilarityMatcher.similarity nInput
        (SmartMatcher.normalizeForField (recFieldValue rec field) field)
        cfg.similarityWeights).score := by
  unfold SmartMatcher.scoreOne
  dsimp only
  rw [if_neg (by omega)]

/-- C7 counterexample: the claim's formula caps the final score at 1.0 in
every case, but with a single matching strategy the code returns the raw
composite score uncapped — here caller-supplied weights make the composite
score 2, while the claimed `min 1 (composite + 0.05 * (1 - 1))` is 1. -/
theorem C7_boost_cap_counterexample :
    (SmartMatcher.findMatches [c7rec] "aa" c7cfg).map (fun r => r.score) = [2] ∧
    ¬((2 : ℚ) = min 1 ((CompositeSimilarityMatcher.similarity
        (SmartMatcher.normalizeForField "aa" c7cfg.field)
        (SmartMatcher.normalizeForField (recFieldValue c7rec c7cfg.field) c7cfg.field)
        c7cfg.similarityWeights).score +
        ((c7rec.matchedBy.length - 1 : Nat) : ℚ) * 0.05)) := by
  have hnf : SmartMatcher.normalizeForField "aa" "x" = "aa" := by decide
  have hrv : recFieldValue c7rec "x" = "aa" := by decide
  have hcomp : (CompositeSimilarityMatcher.similarity "aa" "aa"
      c7cfg.similarityWeights).score = 2 := by
    rw [composite_self_score "aa" (by decide) c7cfg.similarityWeights]
    norm_num [c7cfg, mergeWeights, defaultWeights]
  constructor
  · rw [findMatches_singleton c7rec "aa" c7cfg rfl rfl]
    rw [List.map_cons, List.map_nil]
    rw [scoreOne_score_single _ _ _ _ (by decide)]
    show [(CompositeSimilarityMatcher.similarity
        (SmartMatcher.normalizeForField "aa" "x")
        (SmartMatcher.normalizeForField (recFieldValue c7rec "x") "x")
        c7cfg.similarityWeights).score] = [2]
    rw [hrv, hnf, hcomp]
  · show ¬((2 : ℚ) = min 1 ((CompositeSimilarityMatcher.similarity
        (SmartMatcher.normalizeForField "aa" "x")
        (SmartMatcher.normalizeForField (recFieldValue c7rec "x") "x")
        c7cfg.similarityWeights).score +
        ((c7rec.matchedBy.length - 1 : Nat) : ℚ) * 0.05))
    rw [hrv, hnf, hcomp]
    show ¬((2 : ℚ) = min 1 (2 + ((1 - 1 : Nat) : ℚ) * 0.05))
    norm_num

/-- C7 amended: every candidate returned by `findMatches` is scored by the
composite similarity of the normalized input and the normalized candidate
field value, boosted by 0.05 per matching strategy beyond the first and
capped at 1.0 whenever more than one strategy matched (with one — or zero —
matching strategies the score is the raw composite, uncapped); the tier is
HIGH iff the score is at least 0.95, MEDIUM iff it lies in [0.75, 0.95),
and LOW otherwise. -/
theorem C7_score_and_confidence (records : List SRec) (searchTerm : String)
    (cfg : SearchConfig) (r : MatchResult)
    (hr : r ∈ SmartMatcher.findMatches records searchTerm cfg) :
    (∃ rec ∈ records,
       r = SmartMatcher.scoreOne (SmartMatcher.normalizeForField searchTerm cfg.field)
             cfg.field cfg rec ∧ r.record = rec ∧ r.matchedBy = rec.matchedBy) ∧
    r.normalizedInput = SmartMatcher.normalizeForField searchTerm cfg.field ∧
    r.score =
      (if 1 < r.matchedBy.length then
        min 1 ((CompositeSimilarityMatcher.similarity r.normalizedInput
            r.normalizedRecord cfg.similarityWeights).score +
          ((r.matchedBy.length - 1 : Nat) : ℚ) * 0.05)
      else (CompositeSimilarityMatcher.similarity r.normalizedInput
            r.normalizedRecord cfg.similarityWeights).score) ∧
    ((r.confidence = MatchConfidence.HIGH) ↔ (0.95 : ℚ) ≤ r.score) ∧
    ((r.confidence = MatchConfidence.MEDIUM) ↔ ((0.75 : ℚ) ≤ r.score ∧ r.score < 0.95)) ∧
    ((r.confidence = MatchConfidence.LOW) ↔ r.score < 0.75) := by
  obtain ⟨rec, hrec, heq⟩ := mem_findMatches_src records searchTerm cfg r hr
  have hconf : r.confidence =
      (if (0.95 : ℚ) ≤ r.score then MatchConfidence.HIGH
       else if (0.75 : ℚ) ≤ r.score then MatchConfidence.MEDIUM
       else MatchConfidence.LOW) := by
    rw [heq]
    rfl
  refine ⟨⟨rec, hrec, heq, by rw [heq]; rfl, by rw [heq]; rfl⟩,
    by rw [heq]; rfl, by rw [heq]; rfl, ?_, ?_, ?_⟩
  · rw [hconf]
    exact (tier_spec r.score).1
  · rw [hconf]
    exact (tier_spec r.score).2.1
  · rw [hconf]
    exact (tier_spec r.score).2.2

/-- Witness for C7 on a concrete two-strategy record with default weights. -/
theorem C7_score_and_confidence_witness :
    SmartMatcher.scoreOne (SmartMatcher.normalizeForField "ab" c7cfgW.field)
        c7cfgW.field c7cfgW c7recW ∈ SmartMatcher.findMatches [c7recW] "ab" c7cfgW ∧
    ((SmartMatcher.scoreOne (SmartMatcher.normalizeForField "ab" c7cfgW.field)
        c7cfgW.field c7cfgW c7recW).confidence = MatchConfidence.HIGH ↔
      (0.95 : ℚ) ≤ (SmartMatcher.scoreOne (SmartMatcher.normalizeForField "ab" c7cfgW.field)
        c7cfgW.field c7cfgW c7recW).score) := by
  have hm : SmartMatcher.scoreOne (SmartMatcher.normalizeForField "ab" c7cfgW.field)
      c7cfgW.field c7cfgW c7recW ∈ SmartMatcher.findMatches [c7recW] "ab" c7cfgW := by
    rw [findMatches_singleton c7recW "ab" c7cfgW rfl rfl]
    exact List.mem_singleton.mpr rfl
  exact ⟨hm, (C7_score_and_confidence [c7recW] "ab" c7cfgW _ hm).2.2.2.1⟩

/-- The settled-outcome fold only appends to the result and error lists. -/
theorem settleFold_mono (l : List (RecordOperation × Except String OperationResult)) :
    ∀ st : ExecSt, ∃ tr te, (l.foldl settleStep st).results = st.results ++ tr ∧
      (l.foldl settleStep st).errors = st.errors ++ te := by
  induction l with
  | nil =>
    intro st
    exact ⟨[], [], (List.append_nil _).symm, (List.append_nil _).symm⟩
  | cons p ps ih =>
    intro st
    rw [List.foldl_cons]
    obtain ⟨tr, te, hr, he⟩ := ih (settleStep st p)
    unfold settleStep at hr he ⊢
    match hp : p.2 with
    | .ok res =>
      rw [hp] at hr he
      exact ⟨res :: tr, te, by rw [hr]; simp, by rw [he]⟩
    | .error m =>
      rw [hp] at hr he
      exact ⟨tr, ⟨m, "execution", some p.1⟩ :: te, by rw [hr], by rw [he]; simp⟩

/-- The settled-outcome fold records exactly one entry per settled outcome. -/
theorem settleFold_counts (l : List (RecordOperation × Except String OperationResult)) :
    ∀ st : ExecSt,
      (l.foldl settleStep st).results.length + (l.foldl settleStep st).errors.length =
        st.results.length + st.errors.length + l.length := by
  induction l with
  | nil =>
    intro st
    simp
  | cons p ps ih =>
    intro st
    rw [List.foldl_cons, ih (settleStep st p)]
    unfold settleStep
    match hp : p.2 with
    | .ok res => simp +arith
    | .error m => simp +arith

/-- Every settled outcome in the fold's input is recorded in the output. -/
theorem settleFold_mem (l : List (RecordOperation × Except String OperationResult)) :
    ∀ (st : ExecSt) (p : RecordOperation × Except String OperationResult), p ∈ l →
      (∀ res, p.2 = .ok res → res ∈ (l.foldl settleStep st).results) ∧
      (∀ m, p.2 = .error m →
        (⟨m, "execution", some p.1⟩ : ExecutionError) ∈ (l.foldl settleStep st).errors) := by
  induction l with
  | nil =>
    intro st p hp
    cases hp
  | cons q qs ih =>
    intro st p hp
    rw [List.foldl_cons]
    rcases List.mem_cons.mp hp with heq | htl
    · subst heq
      obtain ⟨tr, te, hr, he⟩ := settleFold_mono qs (settleStep st p)
      constructor
      · intro res hres
        rw [hr]
        apply List.mem_append_left
        unfold settleStep
        rw [hres]
        simp
      · intro m hm
        rw [he]
        apply List.mem_append_left
        unfold settleStep
        rw [hm]
        simp
    · exact ih (settleStep st q) p htl

/-- A sequential run that has already thrown within its prefix ignores every
operation after the throwing one. -/
theorem execSeq_abort (sv : SvcOracle) (ops₁ : List RecordOperation)
    (op : RecordOperation) :
    ∀ (st : ExecSt) (ops₂ : List RecordOperation),
      (execSeq sv (ops₁ ++ [op]) st).2.isSome = true →
      execSeq sv (ops₁ ++ op :: ops₂) st = execSeq sv (ops₁ ++ [op]) st := by
  induction ops₁ with
  | nil =>
    intro st ops₂ hthrown
    simp only [List.nil_append] at hthrown ⊢
    unfold execSeq at hthrown ⊢
    match hex : executeOperation sv st.idMap op with
    | .ok res =>
      rw [hex] at hthrown
      simp [execSeq] at hthrown
    | .error m =>
      rfl
  | cons p ps ih =>
    intro st ops₂ hthrown
    simp only [List.cons_append] at hthrown ⊢
    unfold execSeq at hthrown ⊢
    match hex : executeOperation sv st.idMap p with
    | .ok res =>
      rw [hex] at hthrown
      exact ih _ ops₂ hthrown
    | .error m =>
      rfl

/-- C3: in a batch taken by the parallel branch, every operation is
dispatched and its settled outcome recorded (successes in the results,
failures in the errors — one operation's failure does not cancel its
siblings, and nothing is rethrown); a batch not taken by the parallel branch
runs sequentially, and once a sequential run throws at some operation, the
remaining operations of the batch contribute nothing to the outcome. -/
theorem C3_parallel_isolation_sequential_abort :
    (∀ (sv : SvcOracle) (st : ExecSt) (b : ExecutionBatch),
       b.canParallelize = true → 1 < b.operations.length →
       (stepBatch sv st b).2 = none ∧
       ((stepBatch sv st b).1.results.length + (stepBatch sv st b).1.errors.length =
         st.results.length + st.errors.length + b.operations.length) ∧
       (∀ op ∈ b.operations,
          (∀ res, executeOperation sv st.idMap op = .ok res →
            res ∈ (stepBatch sv st b).1.results) ∧
          (∀ m, executeOperation sv st.idMap op = .error m →
            (⟨m, "execution", some op⟩ : ExecutionError) ∈ (stepBatch sv st b).1.errors))) ∧
    (∀ (sv : SvcOracle) (st : ExecSt) (b : ExecutionBatch),
       ¬(b.canParallelize = true ∧ 1 < b.operations.length) →
       stepBatch sv st b = execSeq sv b.operations st) ∧
    (∀ (sv : SvcOracle) (st : ExecSt) (ops₁ : List RecordOperation)
       (op : RecordOperation) (ops₂ : List RecordOperation),
       (execSeq sv (ops₁ ++ [op]) st).2.isSome = true →
       execSeq sv (ops₁ ++ op :: ops₂) st = execSeq sv (ops₁ ++ [op]) st) := by
  refine ⟨?_, ?_, ?_⟩
  · intro sv st b hpar hlen
    have hstep : stepBatch sv st b = (execPar sv st b.operations, none) := by
      unfold stepBatch
      rw [if_pos]
      rw [hpar]
      simpa using hlen
    rw [hstep]
    unfold execPar
    refine ⟨rfl, ?_, ?_⟩
    · rw [settleFold_counts]
      simp
    · intro op hop
      have hmem : (op, executeOperation sv st.idMap op) ∈
          b.operations.map (fun o => (o, executeOperation sv st.idMap o)) :=
        List.mem_map.mpr ⟨op, hop, rfl⟩
      exact settleFold_mem _ st (op, executeOperation sv st.idMap op) hmem
  · intro sv st b hnot
    unfold stepBatch
    rw [if_neg]
    intro hcontra
    rcases Bool.and_eq_true _ _ |>.mp hcontra with ⟨h1, h2⟩
    exact hnot ⟨h1, by simpa using h2⟩
  · intro sv st ops₁ op ops₂ h
    exact execSeq_abort sv ops₁ op st ops₂ h

/-- Witness for C3: a parallel batch with a failing middle operation records
both successes and the failure; a sequential batch stops at the failure. -/
theorem C3_parallel_isolation_sequential_abort_witness :
    (stepBatch svFix ⟨[], [], []⟩
       ⟨0, [⟨.create, "Account", [("Name", .jstr "A")], none, none⟩,
            ⟨.create, "Account", [("X", .jstr "@missing")], none, none⟩,
            ⟨.create, "Account", [("Name", .jstr "B")], none, none⟩], [], true, []⟩).2 = none ∧
    ((stepBatch svFix ⟨[], [], []⟩
       ⟨0, [⟨.create, "Account", [("Name", .jstr "A")], none, none⟩,
            ⟨.create, "Account", [("X", .jstr "@missing")], none, none⟩,
            ⟨.create, "Account", [("Name", .jstr "B")], none, none⟩], [], true, []⟩).1.results.length +
     (stepBatch svFix ⟨[], [], []⟩
       ⟨0, [⟨.create, "Account", [("Name", .jstr "A")], none, none⟩,
            ⟨.create, "Account", [("X", .jstr "@missing")], none, none⟩,
            ⟨.create, "Account", [("Name", .jstr "B")], none, none⟩], [], true, []⟩).1.errors.length = 3) ∧
    execSeq svFix
      ([⟨.create, "Account", [("Name", .jstr "A")], none, none⟩] ++
        ⟨.create, "Account", [("X", .jstr "@missing")], none, none⟩ ::
          [⟨.create, "Account", [("Name", .jstr "B")], none, none⟩]) ⟨[], [], []⟩ =
    execSeq svFix
      ([⟨.create, "Account", [("Name", .jstr "A")], none, none⟩] ++
        [⟨.create, "Account", [("X", .jstr "@missing")], none, none⟩]) ⟨[], [], []⟩ := by
  refine ⟨?_, ?_, ?_⟩
  · exact (C3_parallel_isolation_sequential_abort.1 svFix ⟨[], [], []⟩ _ rfl (by decide)).1
  · exact (C3_parallel_isolation_sequential_abort.1 svFix ⟨[], [], []⟩ _ rfl (by decide)).2.1
  · exact C3_parallel_isolation_sequential_abort.2.2 svFix ⟨[], [], []⟩ _ _ _ (by decide)


/-- A payload with no temporary-reference values contributes no graph references. -/
theorem refsOf_no_refs (nodes : List GraphNode) (data : List (String × JValue))
    (h : ∀ kv ∈ data, ∀ s, kv.2 = JValue.jstr s → startsWithAt s = false) :
    refsOf nodes data = [] := by
  unfold refsOf
  rw [List.filterMap_eq_nil_iff]
  intro kv hkv
  obtain ⟨k, v⟩ := kv
  cases v with
  | jstr s => exact if_neg (by simp [h ⟨k, .jstr s⟩ hkv s rfl])
  | jnum q => rfl
  | jbool b => rfl
  | jnull => rfl

/-- When every temporary reference in a payload is the id `t`, the reference
scan pairs each referencing field with the node owning `t`. -/
theorem refsOf_uniform (nodes : List GraphNode) (t : String) (n0 : GraphNode)
    (hfind : nodes.find? (fun n => n.tempId = some t) = some n0) :
    ∀ data : List (String × JValue),
      (∀ kv ∈ data, ∀ s, kv.2 = JValue.jstr s → startsWithAt s = true → s = t) →
      refsOf nodes data = (refFields data).map (fun f2 => (f2, n0.id)) := by
  intro data
  induction data with
  | nil => intro _; rfl
  | cons kv rest ih =>
    intro h
    obtain ⟨k, v⟩ := kv
    have hrest := ih (fun kv2 hkv2 s hs hst => h kv2 (List.mem_cons_of_mem _ hkv2) s hs hst)
    simp only [refsOf, refFields] at hrest ⊢
    rw [List.filterMap_cons, List.filterMap_cons]
    cases v with
    | jstr s =>
      by_cases hstp : startsWithAt s = true
      · have hseq : s = t := h ⟨k, .jstr s⟩ (List.mem_cons_self _ _) s rfl hstp
        subst hseq
        simp [hstp, hfind, hrest]
      · simp [hstp, hrest]
    | jnum q => simpa using hrest
    | jbool b => simpa using hrest
    | jnull => simpa using hrest

/-- The DFS over an empty dependency list is a no-op. -/
theorem dfsList_nil_eq (g : DependencyGraph) (path : List String) (st : DfsSt) :
    ∀ fuel : Nat, 0 < fuel → dfsList g fuel [] path st = (false, st) := by
  intro fuel hf
  cases fuel with
  | zero => omega
  | succ f => rfl

/-- The DFS skips dependencies that are already visited and off the
recursion stack, finding no cycle. -/
theorem dfsList_visited_eq (g : DependencyGraph) (deps : List String) :
    ∀ (fuel : Nat) (path : List String) (st : DfsSt), deps.length < fuel →
      (∀ d ∈ deps, st.visited.contains d = true ∧ st.recStack.contains d = false) →
      dfsList g fuel deps path st = (false, st) := by
  induction deps with
  | nil => intro fuel path st hf _; exact dfsList_nil_eq g path st fuel hf
  | cons d rest ih =>
    intro fuel path st hf h
    cases fuel with
    | zero => omega
    | succ f =>
      have hd := h d (List.mem_cons_self _ _)
      unfold dfsList
      rw [if_pos hd.1, if_neg (by rw [hd.2]; simp)]
      exact ih f path st (by simpa using Nat.lt_of_succ_lt_succ hf)
        (fun x hx => h x (List.mem_cons_of_mem _ hx))

/-- A relaxation step over dependencies whose levels are already strictly
below the node level changes nothing. -/
theorem relaxDeps_noop (breakIds : List String) (nodeId : String) :
    ∀ (deps : List String) (nodes : List GraphNode) (changed : Bool),
      (∀ d ∈ deps,
         ∀ nd dp, nodes.find? (fun n => n.id = nodeId) = some nd →
           nodes.find? (fun n => n.id = d) = some dp → dp.level < nd.level) →
      relaxDeps breakIds nodeId deps nodes changed = (nodes, changed) := by
  intro deps
  induction deps with
  | nil => intro nodes changed _; rfl
  | cons d rest ih =>
    intro nodes changed h
    unfold relaxDeps
    by_cases hb : breakIds.contains nodeId = true
    · rw [if_pos hb]
      exact ih nodes changed (fun x hx => h x (List.mem_cons_of_mem _ hx))
    · rw [if_neg hb]
      have htail := ih nodes changed (fun x hx => h x (List.mem_cons_of_mem _ hx))
      cases hnd : nodes.find? (fun n => n.id = nodeId) with
      | none =>
        cases hdp : nodes.find? (fun n => n.id = d) with
        | none => exact htail
        | some dp => exact htail
      | some nd =>
        cases hdp : nodes.find? (fun n => n.id = d) with
        | none => exact htail
        | some dp =>
          have hlt := h d (List.mem_cons_self _ _) nd dp hnd hdp
          exact (if_neg (by omega)).trans htail

/-- Temporary-id resolution is the identity on payloads without temporary
references. -/
theorem resolveData_no_refs (m : List (String × String)) :
    ∀ data : List (String × JValue),
      (∀ kv ∈ data, ∀ s, kv.2 = JValue.jstr s → startsWithAt s = false) →
      resolveData m data = .ok data := by
  intro data
  induction data with
  | nil => intro _; rfl
  | cons kv rest ih =>
    intro h
    have hrest := ih (fun kv2 hkv2 s hs => h kv2 (List.mem_cons_of_mem _ hkv2) s hs)
    obtain ⟨k, v⟩ := kv
    unfold resolveData
    cases v with
    | jstr s =>
      try dsimp only
      have hs := h ⟨k, .jstr s⟩ (List.mem_cons_self _ _) s rfl
      rw [if_neg (by rw [hs]; simp)]
      rw [hrest]
      rfl
    | jnum q => dsimp only; rw [hrest]; rfl
    | jbool b => dsimp only; rw [hrest]; rfl
    | jnull => dsimp only; rw [hrest]; rfl

/-- Temporary-id resolution substitutes the mapped real id for every
reference when all references name `t` and `t` is mapped. -/
theorem resolveData_uniform (m : List (String × String)) (t rid : String)
    (hmap : mapGet m t = some rid) :
    ∀ data : List (String × JValue),
      (∀ kv ∈ data, ∀ s, kv.2 = JValue.jstr s → startsWithAt s = true → s = t) →
      resolveData m data = .ok (resolvedPayload rid data) := by
  intro data
  induction data with
  | nil => intro _; rfl
  | cons kv rest ih =>
    intro h
    have hrest := ih (fun kv2 hkv2 s hs hst => h kv2 (List.mem_cons_of_mem _ hkv2) s hs hst)
    obtain ⟨k, v⟩ := kv
    unfold resolveData
    simp only [resolvedPayload, List.map_cons]
    cases v with
    | jstr s =>
      try dsimp only
      by_cases hstp : startsWithAt s = true
      · have hseq : s = t := h ⟨k, .jstr s⟩ (List.mem_cons_self _ _) s rfl hstp
        subst hseq
        rw [if_pos hstp, hmap, hrest]
        simp only [Except.map_ok, resolvedPayload, if_pos hstp]
        rfl
      · rw [if_neg hstp, hrest]
        simp only [Except.map_ok, resolvedPayload]
        rw [if_neg hstp]
        rfl
    | jnum q => dsimp only; rw [hrest]; rfl
    | jbool b => dsimp only; rw [hrest]; rfl
    | jnull => dsimp only; rw [hrest]; rfl

/-- Node enumeration of a two-operation batch. -/
theorem graphNodes0_two (A B : RecordOperation) :
    graphNodes0 [A, B] =
      [⟨"op_0", A, [], [], 0, false, A.tempId⟩,
       ⟨"op_1", B, [], [], 0, false, B.tempId⟩] := by
  unfold graphNodes0
  norm_num [List.enum, List.enumFrom]
  exact ⟨rfl, rfl⟩


/-- The dependency graph of a two-operation batch in which only the second
operation holds temporary references, all naming the first operation. -/
theorem buildGraph_two (A B : RecordOperation) (t : String)
    (hAt : A.tempId = some t)
    (hAdata : ∀ kv ∈ A.data, ∀ s, kv.2 = JValue.jstr s → startsWithAt s = false)
    (hBdata : ∀ kv ∈ B.data, ∀ s, kv.2 = JValue.jstr s → startsWithAt s = true → s = t) :
    buildDependencyGraph [A, B] =
      { nodes :=
          [⟨"op_0", A, [], (refFields B.data).map (fun _ => "op_1"), 0, false, A.tempId⟩,
           ⟨"op_1", B, (refFields B.data).map (fun _ => "op_0"), [], 0, false, B.tempId⟩],
        edges := (refFields B.data).map (fun f2 => ⟨"op_0", "op_1", f2, "required"⟩) } := by
  have h0 : refsOf
      [⟨"op_0", A, [], [], 0, false, A.tempId⟩, ⟨"op_1", B, [], [], 0, false, B.tempId⟩]
      A.data = [] := refsOf_no_refs _ _ hAdata
  have hfind : List.find? (fun n => n.tempId = some t)
      [(⟨"op_0", A, [], [], 0, false, A.tempId⟩ : GraphNode),
       ⟨"op_1", B, [], [], 0, false, B.tempId⟩] =
      some ⟨"op_0", A, [], [], 0, false, A.tempId⟩ :=
    List.find?_cons_of_pos _ (by simp [hAt])
  have h1 : refsOf
      [⟨"op_0", A, [], [], 0, false, A.tempId⟩, ⟨"op_1", B, [], [], 0, false, B.tempId⟩]
      B.data = (refFields B.data).map (fun f2 => (f2, "op_0")) := by
    simpa using refsOf_uniform _ t _ hfind B.data hBdata
  simp only [buildDependencyGraph]
  rw [graphNodes0_two]
  unfold graphEdges
  simp only [List.flatMap_cons, List.flatMap_nil, List.map_cons, List.map_nil]
  dsimp only
  rw [h0, h1]
  simp [List.filter_map, List.map_map, Function.comp_def]

/-- A DFS root step over already-visited dependencies only marks the root
visited and records no cycle. -/
theorem dfsStart_visited_deps (g : DependencyGraph) (st : DfsSt) (node : GraphNode)
    (hnv : st.visited.contains node.id = false) (hrs : st.recStack = [])
    (hfuel : node.dependencies.length < dfsFuel g)
    (hdeps : ∀ d ∈ node.dependencies,
       (node.id :: st.visited).contains d = true ∧ (d == node.id) = false) :
    dfsStart g st node = { st with visited := node.id :: st.visited } := by
  unfold dfsStart
  rw [if_neg (by rw [hnv]; simp)]
  dsimp only
  rw [dfsList_visited_eq g node.dependencies (dfsFuel g) [node.id]
        ⟨node.id :: st.visited, node.id :: st.recStack, st.circular⟩ hfuel ?hc]
  case hc =>
    intro d hd
    refine ⟨(hdeps d hd).1, ?_⟩
    rw [hrs]
    have hne := (hdeps d hd).2
    simp only [beq_eq_false_iff_ne] at hne
    simp [List.contains, hne]
  dsimp only
  rw [if_neg (by simp)]
  rw [hrs]
  simp [List.filter]

/-- Cycle detection on the two-operation chain graph finds no cycle. -/
theorem detectCircular_two (A B : RecordOperation) (dpt0 : List String)
    (E : List DependencyEdge) (F : List String) :
    detectCircularDependencies
      { nodes := [⟨"op_0", A, [], dpt0, 0, false, A.tempId⟩,
                  ⟨"op_1", B, F.map (fun _ => "op_0"), [], 0, false, B.tempId⟩],
        edges := E } = [] := by
  have h1 : dfsStart
      { nodes := [⟨"op_0", A, [], dpt0, 0, false, A.tempId⟩,
                  ⟨"op_1", B, F.map (fun _ => "op_0"), [], 0, false, B.tempId⟩],
        edges := E } ⟨[], [], []⟩ ⟨"op_0", A, [], dpt0, 0, false, A.tempId⟩ =
      ⟨["op_0"], [], []⟩ := by
    rw [dfsStart_visited_deps _ _ _ (by simp) rfl (by simp [dfsFuel]; try omega) (by simp)]
  have h2 : dfsStart
      { nodes := [⟨"op_0", A, [], dpt0, 0, false, A.tempId⟩,
                  ⟨"op_1", B, F.map (fun _ => "op_0"), [], 0, false, B.tempId⟩],
        edges := E } ⟨["op_0"], [], []⟩
      ⟨"op_1", B, F.map (fun _ => "op_0"), [], 0, false, B.tempId⟩ =
      ⟨["op_1", "op_0"], [], []⟩ := by
    rw [dfsStart_visited_deps _ _ _ (by simp) rfl (by simp [dfsFuel]; try omega) ?hd2]
    case hd2 =>
      intro d hd
      dsimp only at hd
      simp only [List.mem_map] at hd
      obtain ⟨x, hx, hdx⟩ := hd
      subst hdx
      exact ⟨by simp [List.contains], by simp⟩
  unfold detectCircularDependencies
  simp only [List.foldl_cons, List.foldl_nil]
  rw [h1, h2]

/-- A relaxation step bumps the node level to one above the dependency
level when it is not yet strictly above it. -/
theorem relaxDeps_cons_bump (breakIds : List String) (nodeId d : String)
    (rest : List String) (nodes : List GraphNode) (changed : Bool)
    (nd dp : GraphNode) (lvl : Nat)
    (hb : breakIds.contains nodeId = false)
    (hnd : nodes.find? (fun n => n.id = nodeId) = some nd)
    (hdp : nodes.find? (fun n => n.id = d) = some dp)
    (hle : nd.level ≤ dp.level) (hone : dp.level + 1 = lvl) :
    relaxDeps breakIds nodeId (d :: rest) nodes changed =
      relaxDeps breakIds nodeId rest (setLevel nodes nodeId lvl) true := by
  subst hone
  conv_lhs => unfold relaxDeps
  rw [if_neg (by rw [hb]; simp), hnd, hdp]
  exact if_pos hle

/-- A relaxation step over no dependencies changes nothing. -/
theorem relaxDeps_nil_deps (breakIds : List String) (nodeId : String)
    (nodes : List GraphNode) (changed : Bool) :
    relaxDeps breakIds nodeId [] nodes changed = (nodes, changed) := rfl

/-- One changed pass of the level loop consumes one unit of fuel. -/
theorem calcLoop_step (breakIds : List String) (pairs : List (String × List String))
    (nodes nodes2 : List GraphNode) (h : levelPass breakIds pairs nodes = (nodes2, true)) :
    ∀ fuel : Nat, calcLoop breakIds pairs (fuel + 1) nodes = calcLoop breakIds pairs fuel nodes2 := by
  intro fuel
  conv_lhs => unfold calcLoop
  rw [h]
  rfl

/-- The level loop stops at a fixpoint of the pass. -/
theorem calcLoop_stable (breakIds : List String) (pairs : List (String × List String))
    (nodes : List GraphNode) (h : levelPass breakIds pairs nodes = (nodes, false)) :
    ∀ fuel : Nat, 0 < fuel → calcLoop breakIds pairs fuel nodes = nodes := by
  intro fuel hf
  cases fuel with
  | zero => omega
  | succ f =>
    unfold calcLoop
    rw [h]
    rfl

/-- Level calculation on the two-operation chain graph puts the referencing
operation one level below its dependency. -/
theorem calcLevels_two (A B : RecordOperation) (dpt0 : List String)
    (E : List DependencyEdge) (F : List String) (hF : F ≠ []) :
    calculateNodeLevels
      { nodes := [⟨"op_0", A, [], dpt0, 0, false, A.tempId⟩,
                  ⟨"op_1", B, F.map (fun _ => "op_0"), [], 0, false, B.tempId⟩],
        edges := E } [] =
      { nodes := [⟨"op_0", A, [], dpt0, 0, false, A.tempId⟩,
                  ⟨"op_1", B, F.map (fun _ => "op_0"), [], 1, false, B.tempId⟩],
        edges := E } := by
  obtain ⟨f0, F', rfl⟩ := List.exists_cons_of_ne_nil hF
  have hrelax1 : relaxDeps [] "op_1" ("op_0" :: List.map (fun _ => "op_0") F')
      [⟨"op_0", A, [], dpt0, 0, false, A.tempId⟩,
       ⟨"op_1", B, "op_0" :: List.map (fun _ => "op_0") F', [], 0, false, B.tempId⟩] false =
      ([⟨"op_0", A, [], dpt0, 0, false, A.tempId⟩,
        ⟨"op_1", B, "op_0" :: List.map (fun _ => "op_0") F', [], 1, false, B.tempId⟩], true) := by
    rw [relaxDeps_cons_bump [] "op_1" "op_0" _ _ _
          ⟨"op_1", B, "op_0" :: List.map (fun _ => "op_0") F', [], 0, false, B.tempId⟩
          ⟨"op_0", A, [], dpt0, 0, false, A.tempId⟩ 1
          rfl (by simp) (by simp) (by simp) (by simp)]
    rw [show setLevel
          [⟨"op_0", A, [], dpt0, 0, false, A.tempId⟩,
           ⟨"op_1", B, "op_0" :: List.map (fun _ => "op_0") F', [], 0, false, B.tempId⟩]
          "op_1" 1 =
          [⟨"op_0", A, [], dpt0, 0, false, A.tempId⟩,
           ⟨"op_1", B, "op_0" :: List.map (fun _ => "op_0") F', [], 1, false, B.tempId⟩]
        from by simp [setLevel]]
    rw [relaxDeps_noop _ _ _ _ _ ?hno]
    case hno =>
      intro d hd nd dp hnd hdp
      obtain ⟨x, hx, hdx⟩ := List.mem_map.mp hd
      subst hdx
      simp at hnd hdp
      rw [← hnd, ← hdp]
      simp
  have hrelax2 : relaxDeps [] "op_1" ("op_0" :: List.map (fun _ => "op_0") F')
      [⟨"op_0", A, [], dpt0, 0, false, A.tempId⟩,
       ⟨"op_1", B, "op_0" :: List.map (fun _ => "op_0") F', [], 1, false, B.tempId⟩] false =
      ([⟨"op_0", A, [], dpt0, 0, false, A.tempId⟩,
        ⟨"op_1", B, "op_0" :: List.map (fun _ => "op_0") F', [], 1, false, B.tempId⟩], false) := by
    rw [relaxDeps_noop _ _ _ _ _ ?hno2]
    case hno2 =>
      intro d hd nd dp hnd hdp
      rcases List.mem_cons.mp hd with rfl | hd2
      · simp at hnd hdp
        rw [← hnd, ← hdp]
        simp
      · obtain ⟨x, hx, hdx⟩ := List.mem_map.mp hd2
        subst hdx
        simp at hnd hdp
        rw [← hnd, ← hdp]
        simp
  have hp1 : levelPass [] [("op_0", ([] : List String)), ("op_1", "op_0" :: List.map (fun _ => "op_0") F')]
      [⟨"op_0", A, [], dpt0, 0, false, A.tempId⟩,
       ⟨"op_1", B, "op_0" :: List.map (fun _ => "op_0") F', [], 0, false, B.tempId⟩] =
      ([⟨"op_0", A, [], dpt0, 0, false, A.tempId⟩,
        ⟨"op_1", B, "op_0" :: List.map (fun _ => "op_0") F', [], 1, false, B.tempId⟩], true) := by
    unfold levelPass
    simp only [List.foldl_cons, List.foldl_nil]
    try dsimp only
    rw [relaxDeps_nil_deps]
    try dsimp only
    rw [hrelax1]
  have hp2 : levelPass [] [("op_0", ([] : List String)), ("op_1", "op_0" :: List.map (fun _ => "op_0") F')]
      [⟨"op_0", A, [], dpt0, 0, false, A.tempId⟩,
       ⟨"op_1", B, "op_0" :: List.map (fun _ => "op_0") F', [], 1, false, B.tempId⟩] =
      ([⟨"op_0", A, [], dpt0, 0, false, A.tempId⟩,
        ⟨"op_1", B, "op_0" :: List.map (fun _ => "op_0") F', [], 1, false, B.tempId⟩], false) := by
    unfold levelPass
    simp only [List.foldl_cons, List.foldl_nil]
    try dsimp only
    rw [relaxDeps_nil_deps]
    try dsimp only
    rw [hrelax2]
  unfold calculateNodeLevels
  simp only [List.map_cons, List.map_nil]
  try dsimp only
  rw [calcLoop_step _ _ _ _ hp1]
  rw [calcLoop_stable _ _ _ hp2 _ (by simp)]

/-- No cycles, no break points. -/
theorem identifyBP_nil (rels : String → List RelRow) (g : DependencyGraph) :
    identifyCircularBreakPoints rels g [] = [] := rfl

/-- The execution plan of the two-operation chain: two singleton batches in
dependency order, neither parallelizable. -/
theorem plan_two (rels : String → List RelRow) (A B : RecordOperation) (dpt0 : List String)
    (E : List DependencyEdge) (F : List String) (hF : F ≠ []) :
    generateExecutionPlan rels
      { nodes := [⟨"op_0", A, [], dpt0, 0, false, A.tempId⟩,
                  ⟨"op_1", B, F.map (fun _ => "op_0"), [], 0, false, B.tempId⟩],
        edges := E } [] =
      [⟨0, [A], ["op_0"], false, []⟩, ⟨1, [B], ["op_1"], false, []⟩] := by
  simp only [generateExecutionPlan, identifyBP_nil]
  simp only [calcLevels_two A B dpt0 E F hF]
  rw [show levelKeys
        [⟨"op_0", A, [], dpt0, 0, false, A.tempId⟩,
         ⟨"op_1", B, F.map (fun _ => "op_0"), [], 1, false, B.tempId⟩] = [0, 1]
      from by simp [levelKeys]]
  rw [show jsSortBy (fun a b => decide (a ≤ b)) [0, 1] = [0, 1] from by decide]
  simp only [List.map_cons, List.map_nil, List.filter_cons, List.filter_nil]
  norm_num

/-- Executing the two-batch chain plan: the first create runs on the raw
payload, its real id is recorded for the temporary id, and the second create
runs on the payload with the real id substituted; no errors. -/
theorem execPlan_two (sv : SvcOracle) (A B : RecordOperation) (t rid : String)
    (hAty : A.type = .create) (hBty : B.type = .create)
    (hAt : A.tempId = some t)
    (hAdata : ∀ kv ∈ A.data, ∀ s, kv.2 = JValue.jstr s → startsWithAt s = false)
    (hBdata : ∀ kv ∈ B.data, ∀ s, kv.2 = JValue.jstr s → startsWithAt s = true → s = t)
    (hid : (sv.createRecord A.sobject A.data).id = some rid) :
    executePlan sv [⟨0, [A], ["op_0"], false, []⟩, ⟨1, [B], ["op_1"], false, []⟩] =
      ⟨true, [mkOpResult A (sv.createRecord A.sobject A.data),
              mkOpResult B (sv.createRecord B.sobject (resolvedPayload rid B.data))], []⟩ := by
  have hexecA : executeOperation sv [] A =
      .ok (mkOpResult A (sv.createRecord A.sobject A.data)) := by
    unfold executeOperation
    rw [resolveData_no_refs [] A.data hAdata, hAty]
  have hresAid : (mkOpResult A (sv.createRecord A.sobject A.data)).id = some rid := by
    simp [mkOpResult, hid]
  have hidMap : updateIdMap [] A (mkOpResult A (sv.createRecord A.sobject A.data)) =
      [(t, rid)] := by
    unfold updateIdMap
    rw [hAt, hresAid]
    simp [mapSet]
  have hmg : mapGet [(t, rid)] t = some rid := by simp [mapGet]
  have hexecB : executeOperation sv [(t, rid)] B =
      .ok (mkOpResult B (sv.createRecord B.sobject (resolvedPayload rid B.data))) := by
    unfold executeOperation
    rw [resolveData_uniform [(t, rid)] t rid hmg B.data hBdata, hBty]
  have hseqA : execSeq sv [A] ⟨[], [], []⟩ =
      (⟨[mkOpResult A (sv.createRecord A.sobject A.data)], [], [(t, rid)]⟩, none) := by
    unfold execSeq
    try dsimp only
    rw [hexecA]
    try dsimp only
    unfold execSeq
    rw [hidMap]
    simp
  have hseqB : execSeq sv [B]
      ⟨[mkOpResult A (sv.createRecord A.sobject A.data)], [], [(t, rid)]⟩ =
      (⟨[mkOpResult A (sv.createRecord A.sobject A.data),
         mkOpResult B (sv.createRecord B.sobject (resolvedPayload rid B.data))], [],
        updateIdMap [(t, rid)] B
          (mkOpResult B (sv.createRecord B.sobject (resolvedPayload rid B.data)))⟩, none) := by
    unfold execSeq
    try dsimp only
    rw [hexecB]
    try dsimp only
    unfold execSeq
    simp
  have hsb0 : stepBatch sv ⟨[], [], []⟩ ⟨0, [A], ["op_0"], false, []⟩ =
      (⟨[mkOpResult A (sv.createRecord A.sobject A.data)], [], [(t, rid)]⟩, none) := by
    unfold stepBatch
    rw [if_neg (by simp)]
    exact hseqA
  have hsb1 : stepBatch sv
      ⟨[mkOpResult A (sv.createRecord A.sobject A.data)], [], [(t, rid)]⟩
      ⟨1, [B], ["op_1"], false, []⟩ =
      (⟨[mkOpResult A (sv.createRecord A.sobject A.data),
         mkOpResult B (sv.createRecord B.sobject (resolvedPayload rid B.data))], [],
        updateIdMap [(t, rid)] B
          (mkOpResult B (sv.createRecord B.sobject (resolvedPayload rid B.data)))⟩, none) := by
    unfold stepBatch
    rw [if_neg (by simp)]
    exact hseqB
  unfold executePlan execBatches
  rw [hsb0]
  try dsimp only
  unfold execBatches
  rw [hsb1]
  try dsimp only
  try simp
  try rfl

/-- C2: for a batch of two create operations where B's payload holds A's
temporary id as a value (and A's payload holds no temporary references), the
generated plan is exactly two batches, A's strictly before B's, and B's
create executes on the payload in which the referencing field carries the
real id produced by A's successful create in place of the temporary id. -/
theorem C2_linear_chain (rels : String → List RelRow) (sv : SvcOracle)
    (A B : RecordOperation) (t rid f : String)
    (hAty : A.type = .create) (hBty : B.type = .create)
    (hAt : A.tempId = some t) (hft : startsWithAt t = true)
    (hAdata : ∀ kv ∈ A.data, ∀ s, kv.2 = JValue.jstr s → startsWithAt s = false)
    (hBdata : ∀ kv ∈ B.data, ∀ s, kv.2 = JValue.jstr s → startsWithAt s = true → s = t)
    (hBf : (f, JValue.jstr t) ∈ B.data)
    (hid : (sv.createRecord A.sobject A.data).id = some rid) :
    (executeWithDependencies rels sv [A, B]).1.map (fun b => b.operations) = [[A], [B]] ∧
    (executeWithDependencies rels sv [A, B]).2 =
      ⟨true, [mkOpResult A (sv.createRecord A.sobject A.data),
              mkOpResult B (sv.createRecord B.sobject (resolvedPayload rid B.data))], []⟩ ∧
    (f, JValue.jstr rid) ∈ resolvedPayload rid B.data := by
  have hfF : f ∈ refFields B.data := by
    unfold refFields
    exact List.mem_filterMap.mpr ⟨(f, JValue.jstr t), hBf, by simp [hft]⟩
  have hFne : refFields B.data ≠ [] := List.ne_nil_of_mem hfF
  have hG := buildGraph_two A B t hAt hAdata hBdata
  have hcirc := detectCircular_two A B ((refFields B.data).map (fun _ => "op_1"))
      ((refFields B.data).map (fun f2 => ⟨"op_0", "op_1", f2, "required"⟩)) (refFields B.data)
  have hplan := plan_two rels A B ((refFields B.data).map (fun _ => "op_1"))
      ((refFields B.data).map (fun f2 => ⟨"op_0", "op_1", f2, "required"⟩)) (refFields B.data) hFne
  have hexec := execPlan_two sv A B t rid hAty hBty hAt hAdata hBdata hid
  refine ⟨?_, ?_, ?_⟩
  · simp only [executeWithDependencies]
    rw [hG, hcirc, hplan]
    simp
  · simp only [executeWithDependencies]
    rw [hG, hcirc, hplan]
    exact hexec
  · unfold resolvedPayload
    exact List.mem_map.mpr ⟨(f, JValue.jstr t), hBf, by simp [hft]⟩

/-- Witness for C2: an Account create followed by a Contact referencing it
through `@a`; the Contact executes with `AccountId` set to the real id. -/
theorem C2_linear_chain_witness :
    ((executeWithDependencies relsFix svFix
        [⟨.create, "Account", [("Name", .jstr "Acme")], some "@a", none⟩,
         ⟨.create, "Contact", [("LastName", .jstr "Doe"), ("AccountId", .jstr "@a")],
          some "@b", none⟩]).1.map (fun b => b.operations) =
      [[⟨.create, "Account", [("Name", .jstr "Acme")], some "@a", none⟩],
       [⟨.create, "Contact", [("LastName", .jstr "Doe"), ("AccountId", .jstr "@a")],
         some "@b", none⟩]]) ∧
    (executeWithDependencies relsFix svFix
        [⟨.create, "Account", [("Name", .jstr "Acme")], some "@a", none⟩,
         ⟨.create, "Contact", [("LastName", .jstr "Doe"), ("AccountId", .jstr "@a")],
          some "@b", none⟩]).2 =
      ⟨true,
       [mkOpResult ⟨.create, "Account", [("Name", .jstr "Acme")], some "@a", none⟩
          (svFix.createRecord "Account" [("Name", .jstr "Acme")]),
        mkOpResult
          ⟨.create, "Contact", [("LastName", .jstr "Doe"), ("AccountId", .jstr "@a")],
           some "@b", none⟩
          (svFix.createRecord "Contact"
            (resolvedPayload "id-Account"
              [("LastName", .jstr "Doe"), ("AccountId", .jstr "@a")]))], []⟩ ∧
    ("AccountId", JValue.jstr "id-Account") ∈
      resolvedPayload "id-Account" [("LastName", .jstr "Doe"), ("AccountId", .jstr "@a")] :=
  C2_linear_chain relsFix svFix
    ⟨.create, "Account", [("Name", .jstr "Acme")], some "@a", none⟩
    ⟨.create, "Contact", [("LastName", .jstr "Doe"), ("AccountId", .jstr "@a")], some "@b", none⟩
    "@a" "id-Account" "AccountId" rfl rfl rfl (by decide)
    (by
      intro kv hkv s hs
      simp only [List.mem_singleton] at hkv
      subst hkv
      cases hs
      decide)
    (by
      intro kv hkv s hs hst
      rcases List.mem_cons.mp hkv with rfl | hkv2
      · cases hs
        exact absurd hst (by decide)
      · simp only [List.mem_singleton] at hkv2
        subst hkv2
        cases hs
        rfl)
    (by decide) rfl

/-- Node enumeration of a four-operation batch. -/
theorem graphNodes0_four (P c1 c2 c3 : RecordOperation) :
    graphNodes0 [P, c1, c2, c3] =
      [⟨"op_0", P, [], [], 0, false, P.tempId⟩,
       ⟨"op_1", c1, [], [], 0, false, c1.tempId⟩,
       ⟨"op_2", c2, [], [], 0, false, c2.tempId⟩,
       ⟨"op_3", c3, [], [], 0, false, c3.tempId⟩] := by
  unfold graphNodes0
  norm_num [List.enum, List.enumFrom]
  exact ⟨rfl, rfl, rfl, rfl⟩

/-- The dependency graph of a one-parent, three-child batch in which each
child holds temporary references naming only the parent. -/
theorem buildGraph_four (P c1 c2 c3 : RecordOperation) (t : String)
    (hPt : P.tempId = some t)
    (hP : ∀ kv ∈ P.data, ∀ s, kv.2 = JValue.jstr s → startsWithAt s = false)
    (h1 : ∀ kv ∈ c1.data, ∀ s, kv.2 = JValue.jstr s → startsWithAt s = true → s = t)
    (h2 : ∀ kv ∈ c2.data, ∀ s, kv.2 = JValue.jstr s → startsWithAt s = true → s = t)
    (h3 : ∀ kv ∈ c3.data, ∀ s, kv.2 = JValue.jstr s → startsWithAt s = true → s = t) :
    buildDependencyGraph [P, c1, c2, c3] =
      { nodes :=
          [⟨"op_0", P, [],
            (refFields c1.data).map (fun _ => "op_1") ++
              ((refFields c2.data).map (fun _ => "op_2") ++
                (refFields c3.data).map (fun _ => "op_3")), 0, false, P.tempId⟩,
           ⟨"op_1", c1, (refFields c1.data).map (fun _ => "op_0"), [], 0, false, c1.tempId⟩,
           ⟨"op_2", c2, (refFields c2.data).map (fun _ => "op_0"), [], 0, false, c2.tempId⟩,
           ⟨"op_3", c3, (refFields c3.data).map (fun _ => "op_0"), [], 0, false, c3.tempId⟩],
        edges :=
          (refFields c1.data).map (fun f2 => ⟨"op_0", "op_1", f2, "required"⟩) ++
            ((refFields c2.data).map (fun f2 => ⟨"op_0", "op_2", f2, "required"⟩) ++
              (refFields c3.data).map (fun f2 => ⟨"op_0", "op_3", f2, "required"⟩)) } := by
  have hfind : List.find? (fun n => n.tempId = some t)
      [(⟨"op_0", P, [], [], 0, false, P.tempId⟩ : GraphNode),
       ⟨"op_1", c1, [], [], 0, false, c1.tempId⟩,
       ⟨"op_2", c2, [], [], 0, false, c2.tempId⟩,
       ⟨"op_3", c3, [], [], 0, false, c3.tempId⟩] =
      some ⟨"op_0", P, [], [], 0, false, P.tempId⟩ :=
    List.find?_cons_of_pos _ (by simp [hPt])
  have hr0 : refsOf
      [(⟨"op_0", P, [], [], 0, false, P.tempId⟩ : GraphNode),
       ⟨"op_1", c1, [], [], 0, false, c1.tempId⟩,
       ⟨"op_2", c2, [], [], 0, false, c2.tempId⟩,
       ⟨"op_3", c3, [], [], 0, false, c3.tempId⟩] P.data = [] := refsOf_no_refs _ _ hP
  have hr1 : refsOf
      [(⟨"op_0", P, [], [], 0, false, P.tempId⟩ : GraphNode),
       ⟨"op_1", c1, [], [], 0, false, c1.tempId⟩,
       ⟨"op_2", c2, [], [], 0, false, c2.tempId⟩,
       ⟨"op_3", c3, [], [], 0, false, c3.tempId⟩] c1.data =
      (refFields c1.data).map (fun f2 => (f2, "op_0")) := by
    simpa using refsOf_uniform _ t _ hfind c1.data h1
  have hr2 : refsOf
      [(⟨"op_0", P, [], [], 0, false, P.tempId⟩ : GraphNode),
       ⟨"op_1", c1, [], [], 0, false, c1.tempId⟩,
       ⟨"op_2", c2, [], [], 0, false, c2.tempId⟩,
       ⟨"op_3", c3, [], [], 0, false, c3.tempId⟩] c2.data =
      (refFields c2.data).map (fun f2 => (f2, "op_0")) := by
    simpa using refsOf_uniform _ t _ hfind c2.data h2
  have hr3 : refsOf
      [(⟨"op_0", P, [], [], 0, false, P.tempId⟩ : GraphNode),
       ⟨"op_1", c1, [], [], 0, false, c1.tempId⟩,
       ⟨"op_2", c2, [], [], 0, false, c2.tempId⟩,
       ⟨"op_3", c3, [], [], 0, false, c3.tempId⟩] c3.data =
      (refFields c3.data).map (fun f2 => (f2, "op_0")) := by
    simpa using refsOf_uniform _ t _ hfind c3.data h3
  simp only [buildDependencyGraph]
  rw [graphNodes0_four]
  unfold graphEdges
  simp only [List.flatMap_cons, List.flatMap_nil, List.map_cons, List.map_nil]
  try dsimp only
  rw [hr0, hr1, hr2, hr3]
  simp [List.filter_map, List.map_map, Function.comp_def, List.filter_append]

/-- Cycle detection on the fan-out graph finds no cycle. -/
theorem detectCircular_four (P c1 c2 c3 : RecordOperation) (dpt0 : List String)
    (E : List DependencyEdge) (F1 F2 F3 : List String) :
    detectCircularDependencies
      { nodes := [⟨"op_0", P, [], dpt0, 0, false, P.tempId⟩,
                  ⟨"op_1", c1, F1.map (fun _ => "op_0"), [], 0, false, c1.tempId⟩,
                  ⟨"op_2", c2, F2.map (fun _ => "op_0"), [], 0, false, c2.tempId⟩,
                  ⟨"op_3", c3, F3.map (fun _ => "op_0"), [], 0, false, c3.tempId⟩],
        edges := E } = [] := by
  have hs0 : dfsStart
      { nodes := [⟨"op_0", P, [], dpt0, 0, false, P.tempId⟩,
                  ⟨"op_1", c1, F1.map (fun _ => "op_0"), [], 0, false, c1.tempId⟩,
                  ⟨"op_2", c2, F2.map (fun _ => "op_0"), [], 0, false, c2.tempId⟩,
                  ⟨"op_3", c3, F3.map (fun _ => "op_0"), [], 0, false, c3.tempId⟩],
        edges := E } ⟨[], [], []⟩ ⟨"op_0", P, [], dpt0, 0, false, P.tempId⟩ =
      ⟨["op_0"], [], []⟩ := by
    rw [dfsStart_visited_deps _ _ _ (by simp) rfl (by simp [dfsFuel]; try omega) (by simp)]
  have hs1 : dfsStart
      { nodes := [⟨"op_0", P, [], dpt0, 0, false, P.tempId⟩,
                  ⟨"op_1", c1, F1.map (fun _ => "op_0"), [], 0, false, c1.tempId⟩,
                  ⟨"op_2", c2, F2.map (fun _ => "op_0"), [], 0, false, c2.tempId⟩,
                  ⟨"op_3", c3, F3.map (fun _ => "op_0"), [], 0, false, c3.tempId⟩],
        edges := E } ⟨["op_0"], [], []⟩ ⟨"op_1", c1, F1.map (fun _ => "op_0"), [], 0, false, c1.tempId⟩ =
      ⟨["op_1", "op_0"], [], []⟩ := by
    rw [dfsStart_visited_deps _ _ _ (by simp) rfl (by simp [dfsFuel]; try omega) ?hd1]
    case hd1 =>
      intro d hd
      try dsimp only at hd
      simp only [List.mem_map] at hd
      obtain ⟨x, hx, hdx⟩ := hd
      subst hdx
      exact ⟨by simp [List.contains], by simp⟩
  have hs2 : dfsStart
      { nodes := [⟨"op_0", P, [], dpt0, 0, false, P.tempId⟩,
                  ⟨"op_1", c1, F1.map (fun _ => "op_0"), [], 0, false, c1.tempId⟩,
                  ⟨"op_2", c2, F2.map (fun _ => "op_0"), [], 0, false, c2.tempId⟩,
                  ⟨"op_3", c3, F3.map (fun _ => "op_0"), [], 0, false, c3.tempId⟩],
        edges := E } ⟨["op_1", "op_0"], [], []⟩ ⟨"op_2", c2, F2.map (fun _ => "op_0"), [], 0, false, c2.tempId⟩ =
      ⟨["op_2", "op_1", "op_0"], [], []⟩ := by
    rw [dfsStart_visited_deps _ _ _ (by simp) rfl (by simp [dfsFuel]; try omega) ?hd2]
    case hd2 =>
      intro d hd
      try dsimp only at hd
      simp only [List.mem_map] at hd
      obtain ⟨x, hx, hdx⟩ := hd
      subst hdx
      exact ⟨by simp [List.contains], by simp⟩
  have hs3 : dfsStart
      { nodes := [⟨"op_0", P, [], dpt0, 0, false, P.tempId⟩,
                  ⟨"op_1", c1, F1.map (fun _ => "op_0"), [], 0, false, c1.tempId⟩,
                  ⟨"op_2", c2, F2.map (fun _ => "op_0"), [], 0, false, c2.tempId⟩,
                  ⟨"op_3", c3, F3.map (fun _ => "op_0"), [], 0, false, c3.tempId⟩],
        edges := E } ⟨["op_2", "op_1", "op_0"], [], []⟩ ⟨"op_3", c3, F3.map (fun _ => "op_0"), [], 0, false, c3.tempId⟩ =
      ⟨["op_3", "op_2", "op_1", "op_0"], [], []⟩ := by
    rw [dfsStart_visited_deps _ _ _ (by simp) rfl (by simp [dfsFuel]; try omega) ?hd3]
    case hd3 =>
      intro d hd
      try dsimp only at hd
      simp only [List.mem_map] at hd
      obtain ⟨x, hx, hdx⟩ := hd
      subst hdx
      exact ⟨by simp [List.contains], by simp⟩
  unfold detectCircularDependencies
  simp only [List.foldl_cons, List.foldl_nil]
  rw [hs0, hs1, hs2, hs3]

/-- Level calculation on the fan-out graph puts each child one level below
the parent. -/
theorem calcLevels_four (P c1 c2 c3 : RecordOperation) (dpt0 : List String)
    (E : List DependencyEdge) (F1 F2 F3 : List String)
    (hF1 : F1 ≠ []) (hF2 : F2 ≠ []) (hF3 : F3 ≠ []) :
    calculateNodeLevels
      { nodes := [⟨"op_0", P, [], dpt0, 0, false, P.tempId⟩,
                  ⟨"op_1", c1, F1.map (fun _ => "op_0"), [], 0, false, c1.tempId⟩,
                  ⟨"op_2", c2, F2.map (fun _ => "op_0"), [], 0, false, c2.tempId⟩,
                  ⟨"op_3", c3, F3.map (fun _ => "op_0"), [], 0, false, c3.tempId⟩],
        edges := E } [] =
      { nodes := [⟨"op_0", P, [], dpt0, 0, false, P.tempId⟩,
                  ⟨"op_1", c1, F1.map (fun _ => "op_0"), [], 1, false, c1.tempId⟩,
                  ⟨"op_2", c2, F2.map (fun _ => "op_0"), [], 1, false, c2.tempId⟩,
                  ⟨"op_3", c3, F3.map (fun _ => "op_0"), [], 1, false, c3.tempId⟩],
        edges := E } := by
  obtain ⟨f1, F1', rfl⟩ := List.exists_cons_of_ne_nil hF1
  obtain ⟨f2, F2', rfl⟩ := List.exists_cons_of_ne_nil hF2
  obtain ⟨f3, F3', rfl⟩ := List.exists_cons_of_ne_nil hF3
  have hb1 : relaxDeps [] "op_1" ("op_0" :: List.map (fun _ => "op_0") F1')
      [⟨"op_0", P, [], dpt0, 0, false, P.tempId⟩,
       ⟨"op_1", c1, "op_0" :: List.map (fun _ => "op_0") F1', [], 0, false, c1.tempId⟩,
       ⟨"op_2", c2, "op_0" :: List.map (fun _ => "op_0") F2', [], 0, false, c2.tempId⟩,
       ⟨"op_3", c3, "op_0" :: List.map (fun _ => "op_0") F3', [], 0, false, c3.tempId⟩] false =
      ([⟨"op_0", P, [], dpt0, 0, false, P.tempId⟩,
       ⟨"op_1", c1, "op_0" :: List.map (fun _ => "op_0") F1', [], 1, false, c1.tempId⟩,
       ⟨"op_2", c2, "op_0" :: List.map (fun _ => "op_0") F2', [], 0, false, c2.tempId⟩,
       ⟨"op_3", c3, "op_0" :: List.map (fun _ => "op_0") F3', [], 0, false, c3.tempId⟩], true) := by
    rw [relaxDeps_cons_bump [] "op_1" "op_0" _ _ _
          ⟨"op_1", c1, "op_0" :: List.map (fun _ => "op_0") F1', [], 0, false, c1.tempId⟩
          ⟨"op_0", P, [], dpt0, 0, false, P.tempId⟩ 1
          rfl (by simp) (by simp) (by simp) (by simp)]
    rw [show setLevel
          [⟨"op_0", P, [], dpt0, 0, false, P.tempId⟩,
       ⟨"op_1", c1, "op_0" :: List.map (fun _ => "op_0") F1', [], 0, false, c1.tempId⟩,
       ⟨"op_2", c2, "op_0" :: List.map (fun _ => "op_0") F2', [], 0, false, c2.tempId⟩,
       ⟨"op_3", c3, "op_0" :: List.map (fun _ => "op_0") F3', [], 0, false, c3.tempId⟩]
          "op_1" 1 =
          [⟨"op_0", P, [], dpt0, 0, false, P.tempId⟩,
       ⟨"op_1", c1, "op_0" :: List.map (fun _ => "op_0") F1', [], 1, false, c1.tempId⟩,
       ⟨"op_2", c2, "op_0" :: List.map (fun _ => "op_0") F2', [], 0, false, c2.tempId⟩,
       ⟨"op_3", c3, "op_0" :: List.map (fun _ => "op_0") F3', [], 0, false, c3.tempId⟩]
        from by simp [setLevel]]
    rw [relaxDeps_noop _ _ _ _ _ ?hnob1]
    case hnob1 =>
      intro d hd nd dp hnd hdp
      obtain ⟨x, hx, hdx⟩ := List.mem_map.mp hd
      subst hdx
      simp at hnd hdp
      rw [← hnd, ← hdp]
      simp
  have hb2 : relaxDeps [] "op_2" ("op_0" :: List.map (fun _ => "op_0") F2')
      [⟨"op_0", P, [], dpt0, 0, false, P.tempId⟩,
       ⟨"op_1", c1, "op_0" :: List.map (fun _ => "op_0") F1', [], 1, false, c1.tempId⟩,
       ⟨"op_2", c2, "op_0" :: List.map (fun _ => "op_0") F2', [], 0, false, c2.tempId⟩,
       ⟨"op_3", c3, "op_0" :: List.map (fun _ => "op_0") F3', [], 0, false, c3.tempId⟩] true =
      ([⟨"op_0", P, [], dpt0, 0, false, P.tempId⟩,
       ⟨"op_1", c1, "op_0" :: List.map (fun _ => "op_0") F1', [], 1, false, c1.tempId⟩,
       ⟨"op_2", c2, "op_0" :: List.map (fun _ => "op_0") F2', [], 1, false, c2.tempId⟩,
       ⟨"op_3", c3, "op_0" :: List.map (fun _ => "op_0") F3', [], 0, false, c3.tempId⟩], true) := by
    rw [relaxDeps_cons_bump [] "op_2" "op_0" _ _ _
          ⟨"op_2", c2, "op_0" :: List.map (fun _ => "op_0") F2', [], 0, false, c2.tempId⟩
          ⟨"op_0", P, [], dpt0, 0, false, P.tempId⟩ 1
          rfl (by simp) (by simp) (by simp) (by simp)]
    rw [show setLevel
          [⟨"op_0", P, [], dpt0, 0, false, P.tempId⟩,
       ⟨"op_1", c1, "op_0" :: List.map (fun _ => "op_0") F1', [], 1, false, c1.tempId⟩,
       ⟨"op_2", c2, "op_0" :: List.map (fun _ => "op_0") F2', [], 0, false, c2.tempId⟩,
       ⟨"op_3", c3, "op_0" :: List.map (fun _ => "op_0") F3', [], 0, false, c3.tempId⟩]
          "op_2" 1 =
          [⟨"op_0", P, [], dpt0, 0, false, P.tempId⟩,
       ⟨"op_1", c1, "op_0" :: List.map (fun _ => "op_0") F1', [], 1, false, c1.tempId⟩,
       ⟨"op_2", c2, "op_0" :: List.map (fun _ => "op_0") F2', [], 1, false, c2.tempId⟩,
       ⟨"op_3", c3, "op_0" :: List.map (fun _ => "op_0") F3', [], 0, false, c3.tempId⟩]
        from by simp [setLevel]]
    rw [relaxDeps_noop _ _ _ _ _ ?hnob2]
    case hnob2 =>
      intro d hd nd dp hnd hdp
      obtain ⟨x, hx, hdx⟩ := List.mem_map.mp hd
      subst hdx
      simp at hnd hdp
      rw [← hnd, ← hdp]
      simp
  have hb3 : relaxDeps [] "op_3" ("op_0" :: List.map (fun _ => "op_0") F3')
      [⟨"op_0", P, [], dpt0, 0, false, P.tempId⟩,
       ⟨"op_1", c1, "op_0" :: List.map (fun _ => "op_0") F1', [], 1, false, c1.tempId⟩,
       ⟨"op_2", c2, "op_0" :: List.map (fun _ => "op_0") F2', [], 1, false, c2.tempId⟩,
       ⟨"op_3", c3, "op_0" :: List.map (fun _ => "op_0") F3', [], 0, false, c3.tempId⟩] true =
      ([⟨"op_0", P, [], dpt0, 0, false, P.tempId⟩,
       ⟨"op_1", c1, "op_0" :: List.map (fun _ => "op_0") F1', [], 1, false, c1.tempId⟩,
       ⟨"op_2", c2, "op_0" :: List.map (fun _ => "op_0") F2', [], 1, false, c2.tempId⟩,
       ⟨"op_3", c3, "op_0" :: List.map (fun _ => "op_0") F3', [], 1, false, c3.tempId⟩], true) := by
    rw [relaxDeps_cons_bump [] "op_3" "op_0" _ _ _
          ⟨"op_3", c3, "op_0" :: List.map (fun _ => "op_0") F3', [], 0, false, c3.tempId⟩
          ⟨"op_0", P, [], dpt0, 0, false, P.tempId⟩ 1
          rfl (by simp) (by simp) (by simp) (by simp)]
    rw [show setLevel
          [⟨"op_0", P, [], dpt0, 0, false, P.tempId⟩,
       ⟨"op_1", c1, "op_0" :: List.map (fun _ => "op_0") F1', [], 1, false, c1.tempId⟩,
       ⟨"op_2", c2, "op_0" :: List.map (fun _ => "op_0") F2', [], 1, false, c2.tempId⟩,
       ⟨"op_3", c3, "op_0" :: List.map (fun _ => "op_0") F3', [], 0, false, c3.tempId⟩]
          "op_3" 1 =
          [⟨"op_0", P, [], dpt0, 0, false, P.tempId⟩,
       ⟨"op_1", c1, "op_0" :: List.map (fun _ => "op_0") F1', [], 1, false, c1.tempId⟩,
       ⟨"op_2", c2, "op_0" :: List.map (fun _ => "op_0") F2', [], 1, false, c2.tempId⟩,
       ⟨"op_3", c3, "op_0" :: List.map (fun _ => "op_0") F3', [], 1, false, c3.tempId⟩]
        from by simp [setLevel]]
    rw [relaxDeps_noop _ _ _ _ _ ?hnob3]
    case hnob3 =>
      intro d hd nd dp hnd hdp
      obtain ⟨x, hx, hdx⟩ := List.mem_map.mp hd
      subst hdx
      simp at hnd hdp
      rw [← hnd, ← hdp]
      simp
  have hn1 : relaxDeps [] "op_1" ("op_0" :: List.map (fun _ => "op_0") F1')
      [⟨"op_0", P, [], dpt0, 0, false, P.tempId⟩,
       ⟨"op_1", c1, "op_0" :: List.map (fun _ => "op_0") F1', [], 1, false, c1.tempId⟩,
       ⟨"op_2", c2, "op_0" :: List.map (fun _ => "op_0") F2', [], 1, false, c2.tempId⟩,
       ⟨"op_3", c3, "op_0" :: List.map (fun _ => "op_0") F3', [], 1, false, c3.tempId⟩] false =
      ([⟨"op_0", P, [], dpt0, 0, false, P.tempId⟩,
       ⟨"op_1", c1, "op_0" :: List.map (fun _ => "op_0") F1', [], 1, false, c1.tempId⟩,
       ⟨"op_2", c2, "op_0" :: List.map (fun _ => "op_0") F2', [], 1, false, c2.tempId⟩,
       ⟨"op_3", c3, "op_0" :: List.map (fun _ => "op_0") F3', [], 1, false, c3.tempId⟩], false) := by
    rw [relaxDeps_noop _ _ _ _ _ ?hnos1]
    case hnos1 =>
      intro d hd nd dp hnd hdp
      rcases List.mem_cons.mp hd with rfl | hd2
      · simp at hnd hdp
        rw [← hnd, ← hdp]
        simp
      · obtain ⟨x, hx, hdx⟩ := List.mem_map.mp hd2
        subst hdx
        simp at hnd hdp
        rw [← hnd, ← hdp]
        simp
  have hn2 : relaxDeps [] "op_2" ("op_0" :: List.map (fun _ => "op_0") F2')
      [⟨"op_0", P, [], dpt0, 0, false, P.tempId⟩,
       ⟨"op_1", c1, "op_0" :: List.map (fun _ => "op_0") F1', [], 1, false, c1.tempId⟩,
       ⟨"op_2", c2, "op_0" :: List.map (fun _ => "op_0") F2', [], 1, false, c2.tempId⟩,
       ⟨"op_3", c3, "op_0" :: List.map (fun _ => "op_0") F3', [], 1, false, c3.tempId⟩] false =
      ([⟨"op_0", P, [], dpt0, 0, false, P.tempId⟩,
       ⟨"op_1", c1, "op_0" :: List.map (fun _ => "op_0") F1', [], 1, false, c1.tempId⟩,
       ⟨"op_2", c2, "op_0" :: List.map (fun _ => "op_0") F2', [], 1, false, c2.tempId⟩,
       ⟨"op_3", c3, "op_0" :: List.map (fun _ => "op_0") F3', [], 1, false, c3.tempId⟩], false) := by
    rw [relaxDeps_noop _ _ _ _ _ ?hnos2]
    case hnos2 =>
      intro d hd nd dp hnd hdp
      rcases List.mem_cons.mp hd with rfl | hd2
      · simp at hnd hdp
        rw [← hnd, ← hdp]
        simp
      · obtain ⟨x, hx, hdx⟩ := List.mem_map.mp hd2
        subst hdx
        simp at hnd hdp
        rw [← hnd, ← hdp]
        simp
  have hn3 : relaxDeps [] "op_3" ("op_0" :: List.map (fun _ => "op_0") F3')
      [⟨"op_0", P, [], dpt0, 0, false, P.tempId⟩,
       ⟨"op_1", c1, "op_0" :: List.map (fun _ => "op_0") F1', [], 1, false, c1.tempId⟩,
       ⟨"op_2", c2, "op_0" :: List.map (fun _ => "op_0") F2', [], 1, false, c2.tempId⟩,
       ⟨"op_3", c3, "op_0" :: List.map (fun _ => "op_0") F3', [], 1, false, c3.tempId⟩] false =
      ([⟨"op_0", P, [], dpt0, 0, false, P.tempId⟩,
       ⟨"op_1", c1, "op_0" :: List.map (fun _ => "op_0") F1', [], 1, false, c1.tempId⟩,
       ⟨"op_2", c2, "op_0" :: List.map (fun _ => "op_0") F2', [], 1, false, c2.tempId⟩,
       ⟨"op_3", c3, "op_0" :: List.map (fun _ => "op_0") F3', [], 1, false, c3.tempId⟩], false) := by
    rw [relaxDeps_noop _ _ _ _ _ ?hnos3]
    case hnos3 =>
      intro d hd nd dp hnd hdp
      rcases List.mem_cons.mp hd with rfl | hd2
      · simp at hnd hdp
        rw [← hnd, ← hdp]
        simp
      · obtain ⟨x, hx, hdx⟩ := List.mem_map.mp hd2
        subst hdx
        simp at hnd hdp
        rw [← hnd, ← hdp]
        simp
  have hp1 : levelPass [] [("op_0", ([] : List String)), ("op_1", "op_0" :: List.map (fun _ => "op_0") F1'), ("op_2", "op_0" :: List.map (fun _ => "op_0") F2'), ("op_3", "op_0" :: List.map (fun _ => "op_0") F3')]
      [⟨"op_0", P, [], dpt0, 0, false, P.tempId⟩,
       ⟨"op_1", c1, "op_0" :: List.map (fun _ => "op_0") F1', [], 0, false, c1.tempId⟩,
       ⟨"op_2", c2, "op_0" :: List.map (fun _ => "op_0") F2', [], 0, false, c2.tempId⟩,
       ⟨"op_3", c3, "op_0" :: List.map (fun _ => "op_0") F3', [], 0, false, c3.tempId⟩] =
      ([⟨"op_0", P, [], dpt0, 0, false, P.tempId⟩,
       ⟨"op_1", c1, "op_0" :: List.map (fun _ => "op_0") F1', [], 1, false, c1.tempId⟩,
       ⟨"op_2", c2, "op_0" :: List.map (fun _ => "op_0") F2', [], 1, false, c2.tempId⟩,
       ⟨"op_3", c3, "op_0" :: List.map (fun _ => "op_0") F3', [], 1, false, c3.tempId⟩], true) := by
    unfold levelPass
    simp only [List.foldl_cons, List.foldl_nil]
    try dsimp only
    rw [relaxDeps_nil_deps]
    try dsimp only
    rw [hb1]
    try dsimp only
    rw [hb2]
    try dsimp only
    rw [hb3]
  have hp2 : levelPass [] [("op_0", ([] : List String)), ("op_1", "op_0" :: List.map (fun _ => "op_0") F1'), ("op_2", "op_0" :: List.map (fun _ => "op_0") F2'), ("op_3", "op_0" :: List.map (fun _ => "op_0") F3')]
      [⟨"op_0", P, [], dpt0, 0, false, P.tempId⟩,
       ⟨"op_1", c1, "op_0" :: List.map (fun _ => "op_0") F1', [], 1, false, c1.tempId⟩,
       ⟨"op_2", c2, "op_0" :: List.map (fun _ => "op_0") F2', [], 1, false, c2.tempId⟩,
       ⟨"op_3", c3, "op_0" :: List.map (fun _ => "op_0") F3', [], 1, false, c3.tempId⟩] =
      ([⟨"op_0", P, [], dpt0, 0, false, P.tempId⟩,
       ⟨"op_1", c1, "op_0" :: List.map (fun _ => "op_0") F1', [], 1, false, c1.tempId⟩,
       ⟨"op_2", c2, "op_0" :: List.map (fun _ => "op_0") F2', [], 1, false, c2.tempId⟩,
       ⟨"op_3", c3, "op_0" :: List.map (fun _ => "op_0") F3', [], 1, false, c3.tempId⟩], false) := by
    unfold levelPass
    simp only [List.foldl_cons, List.foldl_nil]
    try dsimp only
    rw [relaxDeps_nil_deps]
    try dsimp only
    rw [hn1]
    try dsimp only
    rw [hn2]
    try dsimp only
    rw [hn3]
  unfold calculateNodeLevels
  simp only [List.map_cons, List.map_nil]
  try dsimp only
  rw [calcLoop_step _ _ _ _ hp1]
  rw [calcLoop_stable _ _ _ hp2 _ (by simp)]

/-- The execution plan of the fan-out graph: a singleton parent batch, then
one batch with the three children, marked parallelizable. -/
theorem plan_four (rels : String → List RelRow) (P c1 c2 c3 : RecordOperation)
    (dpt0 : List String) (E : List DependencyEdge) (F1 F2 F3 : List String)
    (hF1 : F1 ≠ []) (hF2 : F2 ≠ []) (hF3 : F3 ≠ []) :
    generateExecutionPlan rels
      { nodes := [⟨"op_0", P, [], dpt0, 0, false, P.tempId⟩,
                  ⟨"op_1", c1, F1.map (fun _ => "op_0"), [], 0, false, c1.tempId⟩,
                  ⟨"op_2", c2, F2.map (fun _ => "op_0"), [], 0, false, c2.tempId⟩,
                  ⟨"op_3", c3, F3.map (fun _ => "op_0"), [], 0, false, c3.tempId⟩],
        edges := E } [] =
      [⟨0, [P], ["op_0"], false, []⟩,
       ⟨1, [c1, c2, c3], ["op_1", "op_2", "op_3"], true, []⟩] := by
  simp only [generateExecutionPlan, identifyBP_nil]
  simp only [calcLevels_four P c1 c2 c3 dpt0 E F1 F2 F3 hF1 hF2 hF3]
  rw [show levelKeys
        [⟨"op_0", P, [], dpt0, 0, false, P.tempId⟩,
         ⟨"op_1", c1, F1.map (fun _ => "op_0"), [], 1, false, c1.tempId⟩,
         ⟨"op_2", c2, F2.map (fun _ => "op_0"), [], 1, false, c2.tempId⟩,
         ⟨"op_3", c3, F3.map (fun _ => "op_0"), [], 1, false, c3.tempId⟩] = [0, 1]
      from by simp [levelKeys]]
  rw [show jsSortBy (fun a b => decide (a ≤ b)) [0, 1] = [0, 1] from by decide]
  simp only [List.map_cons, List.map_nil, List.filter_cons, List.filter_nil]
  norm_num

/-- A one-parent, three-child batch plans into exactly two batches: the
parent alone, then the three children with the parallel flag set. -/
theorem fanout_plan_shape (rels : String → List RelRow) (sv : SvcOracle)
    (P c1 c2 c3 : RecordOperation) (t f1 f2 f3 : String)
    (hPt : P.tempId = some t) (hft : startsWithAt t = true)
    (hP : ∀ kv ∈ P.data, ∀ s, kv.2 = JValue.jstr s → startsWithAt s = false)
    (h1 : ∀ kv ∈ c1.data, ∀ s, kv.2 = JValue.jstr s → startsWithAt s = true → s = t)
    (h2 : ∀ kv ∈ c2.data, ∀ s, kv.2 = JValue.jstr s → startsWithAt s = true → s = t)
    (h3 : ∀ kv ∈ c3.data, ∀ s, kv.2 = JValue.jstr s → startsWithAt s = true → s = t)
    (hf1 : (f1, JValue.jstr t) ∈ c1.data) (hf2 : (f2, JValue.jstr t) ∈ c2.data)
    (hf3 : (f3, JValue.jstr t) ∈ c3.data) :
    (executeWithDependencies rels sv [P, c1, c2, c3]).1 =
      [⟨0, [P], ["op_0"], false, []⟩,
       ⟨1, [c1, c2, c3], ["op_1", "op_2", "op_3"], true, []⟩] := by
  have hF1 : refFields c1.data ≠ [] := List.ne_nil_of_mem
    (show f1 ∈ refFields c1.data from by
      unfold refFields
      exact List.mem_filterMap.mpr ⟨(f1, JValue.jstr t), hf1, by simp [hft]⟩)
  have hF2 : refFields c2.data ≠ [] := List.ne_nil_of_mem
    (show f2 ∈ refFields c2.data from by
      unfold refFields
      exact List.mem_filterMap.mpr ⟨(f2, JValue.jstr t), hf2, by simp [hft]⟩)
  have hF3 : refFields c3.data ≠ [] := List.ne_nil_of_mem
    (show f3 ∈ refFields c3.data from by
      unfold refFields
      exact List.mem_filterMap.mpr ⟨(f3, JValue.jstr t), hf3, by simp [hft]⟩)
  have hG := buildGraph_four P c1 c2 c3 t hPt hP h1 h2 h3
  have hcirc := detectCircular_four P c1 c2 c3
      ((refFields c1.data).map (fun _ => "op_1") ++
        ((refFields c2.data).map (fun _ => "op_2") ++
          (refFields c3.data).map (fun _ => "op_3")))
      ((refFields c1.data).map (fun f2 => ⟨"op_0", "op_1", f2, "required"⟩) ++
        ((refFields c2.data).map (fun f2 => ⟨"op_0", "op_2", f2, "required"⟩) ++
          (refFields c3.data).map (fun f2 => ⟨"op_0", "op_3", f2, "required"⟩)))
      (refFields c1.data) (refFields c2.data) (refFields c3.data)
  have hplan := plan_four rels P c1 c2 c3
      ((refFields c1.data).map (fun _ => "op_1") ++
        ((refFields c2.data).map (fun _ => "op_2") ++
          (refFields c3.data).map (fun _ => "op_3")))
      ((refFields c1.data).map (fun f2 => ⟨"op_0", "op_1", f2, "required"⟩) ++
        ((refFields c2.data).map (fun f2 => ⟨"op_0", "op_2", f2, "required"⟩) ++
          (refFields c3.data).map (fun f2 => ⟨"op_0", "op_3", f2, "required"⟩)))
      (refFields c1.data) (refFields c2.data) (refFields c3.data) hF1 hF2 hF3
  simp only [executeWithDependencies]
  rw [hG, hcirc, hplan]

/-- Every batch the planner emits is flagged parallelizable exactly when it
holds more than one operation. -/
theorem plan_parallel_flag_iff (rels : String → List RelRow) (graph : DependencyGraph)
    (circ : List CircularDependency) (b : ExecutionBatch)
    (hb : b ∈ generateExecutionPlan rels graph circ) :
    b.canParallelize = true ↔ 1 < b.operations.length := by
  simp only [generateExecutionPlan] at hb
  obtain ⟨lvl, hlvl, rfl⟩ := List.mem_map.mp hb
  simp [List.length_map]

/-- C8: a batch's parallel flag is true exactly when the batch holds more
than one node, and a parent-plus-three-children batch plans into exactly two
batches, the second holding the three children with the flag set. -/
theorem C8_fanout_two_batches_and_parallel_flag :
    (∀ (rels : String → List RelRow) (graph : DependencyGraph)
       (circ : List CircularDependency) (b : ExecutionBatch),
       b ∈ generateExecutionPlan rels graph circ →
       (b.canParallelize = true ↔ 1 < b.operations.length)) ∧
    (∀ (rels : String → List RelRow) (sv : SvcOracle) (P c1 c2 c3 : RecordOperation)
       (t f1 f2 f3 : String),
       P.tempId = some t → startsWithAt t = true →
       (∀ kv ∈ P.data, ∀ s, kv.2 = JValue.jstr s → startsWithAt s = false) →
       (∀ kv ∈ c1.data, ∀ s, kv.2 = JValue.jstr s → startsWithAt s = true → s = t) →
       (∀ kv ∈ c2.data, ∀ s, kv.2 = JValue.jstr s → startsWithAt s = true → s = t) →
       (∀ kv ∈ c3.data, ∀ s, kv.2 = JValue.jstr s → startsWithAt s = true → s = t) →
       (f1, JValue.jstr t) ∈ c1.data → (f2, JValue.jstr t) ∈ c2.data →
       (f3, JValue.jstr t) ∈ c3.data →
       (executeWithDependencies rels sv [P, c1, c2, c3]).1 =
         [⟨0, [P], ["op_0"], false, []⟩,
          ⟨1, [c1, c2, c3], ["op_1", "op_2", "op_3"], true, []⟩]) :=
  ⟨fun rels graph circ b hb => plan_parallel_flag_iff rels graph circ b hb,
   fun rels sv P c1 c2 c3 t f1 f2 f3 hPt hft hP h1 h2 h3 hf1 hf2 hf3 =>
     fanout_plan_shape rels sv P c1 c2 c3 t f1 f2 f3 hPt hft hP h1 h2 h3 hf1 hf2 hf3⟩

/-- Witness for C8: an Account parent and three Contact children referencing
it through `@p`. -/
theorem C8_fanout_two_batches_and_parallel_flag_witness :
    (executeWithDependencies relsFix svFix
       [⟨.create, "Account", [("Name", .jstr "Acme")], some "@p", none⟩,
        ⟨.create, "Contact", [("LastName", .jstr "A"), ("AccountId", .jstr "@p")], some "@x", none⟩,
        ⟨.create, "Contact", [("LastName", .jstr "B"), ("AccountId", .jstr "@p")], some "@y", none⟩,
        ⟨.create, "Contact", [("LastName", .jstr "C"), ("AccountId", .jstr "@p")], some "@z", none⟩]).1 =
      [⟨0, [⟨.create, "Account", [("Name", .jstr "Acme")], some "@p", none⟩], ["op_0"], false, []⟩,
       ⟨1, [⟨.create, "Contact", [("LastName", .jstr "A"), ("AccountId", .jstr "@p")], some "@x", none⟩,
            ⟨.create, "Contact", [("LastName", .jstr "B"), ("AccountId", .jstr "@p")], some "@y", none⟩,
            ⟨.create, "Contact", [("LastName", .jstr "C"), ("AccountId", .jstr "@p")], some "@z", none⟩], ["op_1", "op_2", "op_3"], true, []⟩] :=
  C8_fanout_two_batches_and_parallel_flag.2 relsFix svFix
    ⟨.create, "Account", [("Name", .jstr "Acme")], some "@p", none⟩
    ⟨.create, "Contact", [("LastName", .jstr "A"), ("AccountId", .jstr "@p")], some "@x", none⟩
    ⟨.create, "Contact", [("LastName", .jstr "B"), ("AccountId", .jstr "@p")], some "@y", none⟩
    ⟨.create, "Contact", [("LastName", .jstr "C"), ("AccountId", .jstr "@p")], some "@z", none⟩
    "@p" "AccountId" "AccountId" "AccountId" rfl (by decide)
    (by
      intro kv hkv s hs
      simp only [List.mem_singleton] at hkv
      subst hkv
      cases hs
      decide)
    (by
      intro kv hkv s hs hst
      rcases List.mem_cons.mp hkv with rfl | hkv2
      · cases hs
        exact absurd hst (by decide)
      · simp only [List.mem_singleton] at hkv2
        subst hkv2
        cases hs
        rfl)
    (by
      intro kv hkv s hs hst
      rcases List.mem_cons.mp hkv with rfl | hkv2
      · cases hs
        exact absurd hst (by decide)
      · simp only [List.mem_singleton] at hkv2
        subst hkv2
        cases hs
        rfl)
    (by
      intro kv hkv s hs hst
      rcases List.mem_cons.mp hkv with rfl | hkv2
      · cases hs
        exact absurd hst (by decide)
      · simp only [List.mem_singleton] at hkv2
        subst hkv2
        cases hs
        rfl)
    (by decide) (by decide) (by decide)

end SfMcp
